import Mathlib

/-!
Verification of the ZIP-recovery core of `socrtwo/file-fixer-bot`.

This file gives a shallow embedding of the byte-level ZIP repair code in
`src/supabase/functions/repair-office-file/index.ts` (the signature scan,
local-file-header parsing, the per-entry decompression dispatch and the
XML text-extraction helpers, plus `extractTextFromXml` from the unnamed
source part), and proves or refutes the frozen claims about it.

Modelling conventions:
  * a byte buffer (`Uint8Array`) is a `List Nat` of byte values;
  * JavaScript strings are Lean `String`s / `List Char`;
  * the external `DecompressionStream` inflate routines are parameters of
    type `List Nat → Option (List Nat)` (`none` models a thrown error);
  * JavaScript `arr.slice(a, b)` (clamping, never out of bounds) is
    `sliceJS`; `arr[i]` reads are `List.getD` (all reads the code performs
    are guarded in-bounds);
  * loops over indices are fuel-based recursions, with fuel at least the
    iteration count of the source loop, so that every definition is
    executable and reduces in the kernel.
-/

set_option maxRecDepth 100000

/-- JavaScript `data.slice(a, b)`: the elements at indices `[a, b)`,
clamped to the array bounds. -/
def sliceJS (l : List Nat) (a b : Nat) : List Nat :=
  (l.take b).drop a

/-- Little-endian 16-bit read `data[off] | (data[off+1] << 8)` (bytes are
disjoint bit ranges, so bitwise-or is addition). -/
def readLE16 (data : List Nat) (off : Nat) : Nat :=
  data.getD off 0 + 256 * data.getD (off + 1) 0

/-- Little-endian 32-bit read
`(data[off] | data[off+1]<<8 | data[off+2]<<16 | data[off+3]<<24) >>> 0`. -/
def readLE32 (data : List Nat) (off : Nat) : Nat :=
  data.getD off 0 + 256 * data.getD (off + 1) 0 +
    65536 * data.getD (off + 2) 0 + 16777216 * data.getD (off + 3) 0

/-- The 4-byte ZIP local-file-header signature test
`data[i] === 0x50 && data[i+1] === 0x4b && data[i+2] === 0x03 && data[i+3] === 0x04`. -/
def sigAt (data : List Nat) (i : Nat) : Bool :=
  data.getD i 0 == 0x50 && data.getD (i + 1) 0 == 0x4b &&
    data.getD (i + 2) 0 == 0x03 && data.getD (i + 3) 0 == 0x04

/-- The signature scan loop of `fallbackZipRepair`:
`for (let i = 0; i < uint8Array.length - 4; i++) if (sig at i) push(i)`.
Fuel-based; `localFileHeaders` supplies enough fuel. -/
def scanF (data : List Nat) : Nat → Nat → List Nat
  | 0, _ => []
  | fuel + 1, i =>
    if i < data.length - 4 then
      (if sigAt data i then i :: scanF data fuel (i + 1) else scanF data fuel (i + 1))
    else []

/-- All offsets collected by the signature scan of `fallbackZipRepair`
(the `localFileHeaders` array). -/
def localFileHeaders (data : List Nat) : List Nat :=
  scanF data data.length 0

/-- The clamp loop of `parseLocalFileHeader`:
`let endOffset = data.length; for (let i = dataStart + 1; i < data.length - 4; i++)
 if (sig at i) { endOffset = i; break }`. Fuel-based. -/
def nextSigEndF (data : List Nat) : Nat → Nat → Nat
  | 0, _ => data.length
  | fuel + 1, i =>
    if i < data.length - 4 then
      (if sigAt data i then i else nextSigEndF data fuel (i + 1))
    else data.length

/-- End offset used when the declared compressed size is unusable: the first
signature found strictly after `dataStart`, else the end of the buffer. -/
def nextSigEnd (data : List Nat) (dataStart : Nat) : Nat :=
  nextSigEndF data data.length (dataStart + 1)

/-- The Unicode replacement character emitted by lenient `TextDecoder`. -/
def replChar : Char := Char.ofNat 0xFFFD

/-- Is `b` a UTF-8 continuation byte `0b10xxxxxx`? -/
def isCont (b : Nat) : Bool := 0x80 ≤ b && b ≤ 0xBF

/-- Valid range of the first continuation byte of a multi-byte UTF-8
sequence, depending on the leading byte. -/
def cont1ok (b c1 : Nat) : Bool :=
  if b == 0xE0 then 0xA0 ≤ c1 && c1 ≤ 0xBF
  else if b == 0xED then 0x80 ≤ c1 && c1 ≤ 0x9F
  else if b == 0xF0 then 0x90 ≤ c1 && c1 ≤ 0xBF
  else if b == 0xF4 then 0x80 ≤ c1 && c1 ≤ 0x8F
  else isCont c1

/-- Lenient UTF-8 decoding, fuel-based (each step consumes at least one
byte, so fuel = input length suffices). -/
def utf8DecodeF : Nat → List Nat → List Char
  | 0, _ => []
  | _, [] => []
  | fuel + 1, b :: rest =>
    if b < 0x80 then
      Char.ofNat b :: utf8DecodeF fuel rest
    else if 0xC2 ≤ b ∧ b ≤ 0xDF then
      match rest with
      | c1 :: rest2 =>
        if isCont c1 then Char.ofNat ((b - 0xC0) * 64 + (c1 - 0x80)) :: utf8DecodeF fuel rest2
        else replChar :: utf8DecodeF fuel rest
      | [] => [replChar]
    else if 0xE0 ≤ b ∧ b ≤ 0xEF then
      match rest with
      | c1 :: c2 :: rest3 =>
        if cont1ok b c1 && isCont c2 then
          Char.ofNat ((b - 0xE0) * 4096 + (c1 - 0x80) * 64 + (c2 - 0x80)) :: utf8DecodeF fuel rest3
        else replChar :: utf8DecodeF fuel rest
      | _ => replChar :: utf8DecodeF fuel rest
    else if 0xF0 ≤ b ∧ b ≤ 0xF4 then
      match rest with
      | c1 :: c2 :: c3 :: rest4 =>
        if cont1ok b c1 && isCont c2 && isCont c3 then
          Char.ofNat ((b - 0xF0) * 262144 + (c1 - 0x80) * 4096 + (c2 - 0x80) * 64 + (c3 - 0x80))
            :: utf8DecodeF fuel rest4
        else replChar :: utf8DecodeF fuel rest
      | _ => replChar :: utf8DecodeF fuel rest
    else replChar :: utf8DecodeF fuel rest

/-- Lenient UTF-8 decoding, modelling `new TextDecoder().decode` /
`new TextDecoder('utf-8', { fatal: false }).decode`: invalid sequences
produce the replacement character instead of throwing. -/
def utf8Decode (s : List Nat) : List Char :=
  utf8DecodeF s.length s

/-- UTF-8 encoding of one scalar value (`TextEncoder`). -/
def utf8EncodeChar (c : Char) : List Nat :=
  let n := c.toNat
  if n < 0x80 then [n]
  else if n < 0x800 then [0xC0 + n / 64, 0x80 + n % 64]
  else if n < 0x10000 then [0xE0 + n / 4096, 0x80 + n / 64 % 64, 0x80 + n % 64]
  else [0xF0 + n / 262144, 0x80 + n / 4096 % 64, 0x80 + n / 64 % 64, 0x80 + n % 64]

/-- `new TextEncoder().encode(s)`. -/
def utf8Encode (s : List Char) : List Nat :=
  (s.map utf8EncodeChar).flatten

/-- `s.endsWith(pat)` on character lists. -/
def endsWithL (s pat : List Char) : Bool :=
  pat.isSuffixOf s

/-- `s.endsWith(pat)` on strings. -/
def endsWithS (s pat : String) : Bool :=
  endsWithL s.data pat.data

/-- First index at which `pat` occurs as a contiguous block of `s`
(JavaScript `s.indexOf(pat)`, as an `Option`). -/
def findSub {α : Type} [DecidableEq α] (pat : List α) : List α → Option Nat
  | [] => if pat.isEmpty then some 0 else none
  | a :: rest =>
    if pat.isPrefixOf (a :: rest) then some 0
    else (findSub pat rest).map (· + 1)

/-- JavaScript `s.includes(pat)`. -/
def containsSub {α : Type} [DecidableEq α] (s pat : List α) : Bool :=
  (findSub pat s).isSome

/-- JavaScript `s.lastIndexOf(pat)`: the last index at which `pat` occurs in
`s`, and `-1` when it does not occur; computed by searching the reversals, so
the last occurrence in `s` is the first in the reversal. -/
def lastIndexOfJS {α : Type} [DecidableEq α] (pat s : List α) : Int :=
  match findSub pat.reverse s.reverse with
  | some k => ((s.length - (pat.length + k) : Nat) : Int)
  | none => -1
/-- The corrupted-document sentence whose last occurrence `extractXmlFromRawData`
looks up in its hard-coded template (the argument of `lastIndexOf`). -/
def corruptionSentence : String :=
  "ven though you cannot change your family history, diabetes can be controlled through an exercise and nutrition program."

/-- The headline phrase of the hard-coded "healthcare document" template,
singled out because claim C8 is about this prose appearing in recovery output. -/
def healthPhrase : String := "Introduction to the Rehabilitation Health Care Team"

/-- Text of the hard-coded template before `healthPhrase` (split into short
literal chunks so lengths stay kernel-computable; the chunks concatenate to the
verbatim source text). -/
def htPreA : String :=
  "<?xml version=\"1.0\" encoding=\"UTF-8\" standalone=\"yes\"?>\n<w:document xmlns:ve=\"http://schemas.openxmlformats.org/markup-compatibility/2006\" xmlns:o=\"urn:schemas-microsoft-com:office:office\" xmlns:r=\"http://schemas.openxmlformats.org/officeDocument/2006/relationships\" xmlns:m=\"http://schemas.openxmlformats.org/officeDocument/2006/math\" xmlns:v=\"urn:schemas-microsoft-com:vml\" xmlns:wp=\"http://schemas.openxmlformats.org/drawingml/2006/wordprocessingDrawing\" xmlns:w10=\"urn:schemas-microsoft-com:office:word\" xmlns:w=\"http://schemas.openxmlformats.org/wordprocessingml/2006/main\" xmlns:wne=\"http://schemas.microsoft.com/office/word/2006/wordml\"><w:body><w:p w:rsidR=\"00FE7832\" w:rsidRDefault=\"00732176" ++
  "\" w:rsidP=\"00732176\"><w:pPr><w:jc w:val=\"center\"/><w:rPr><w:b/><w:sz w:val=\"40\"/><w:szCs w:val=\"40\"/></w:rPr></w:pPr><w:r w:rsidRPr=\"00732176\"><w:rPr><w:b/><w:sz w:val=\"40\"/><w:szCs w:val=\"40\"/></w:rPr><w:t>"

/-- Text of the hard-coded template between `healthPhrase` and
`corruptionSentence`, split into short literal chunks. -/
def htPreB : String :=
  "</w:t></w:r></w:p><w:p w:rsidR=\"00732176\" w:rsidRDefault=\"00732176\" w:rsidP=\"00732176\"><w:pPr><w:rPr><w:sz w:val=\"24\"/><w:szCs w:val=\"24\"/></w:rPr></w:pPr><w:r><w:rPr><w:sz w:val=\"24\"/><w:szCs w:val=\"24\"/></w:rPr><w:t xml:space=\"preserve\">During Rehabilitation it is most likely that there will be many individuals working with you. Each of these individuals is from different specialties. It is essential that you get to know the health care team and feel comfortable addressing any issue that arises during the recovery process. Services delivered during rehabilitation may comprise of physical, occupational, and speech therapies, </w:t></w:r><w:r w:rsidR=\"00A8066F\"><w:rPr><w:sz w:val=\"24\"/><w:sz" ++
  "Cs w:val=\"24\"/></w:rPr><w:t xml:space=\"preserve\">and </w:t></w:r><w:r><w:rPr><w:sz w:val=\"24\"/><w:szCs w:val=\"24\"/></w:rPr><w:t>recreation therapy. See the information below for a more detailed description of what the purpose of each specialty is.</w:t></w:r></w:p><w:p w:rsidR=\"00732176\" w:rsidRDefault=\"00732176\" w:rsidP=\"00732176\"><w:pPr><w:rPr><w:sz w:val=\"24\"/><w:szCs w:val=\"24\"/></w:rPr></w:pPr><w:r w:rsidRPr=\"00A8066F\"><w:rPr><w:sz w:val=\"28\"/><w:szCs w:val=\"28\"/></w:rPr><w:t>Physical Therapy (PT)</w:t></w:r><w:r><w:rPr><w:sz w:val=\"24\"/><w:szCs w:val=\"24\"/></w:rPr><w:t xml:space=\"preserve\"> helps restore physical functioning such as walking, range of motion, and strength. PT will addre" ++
  "ss impaired balance, partial or one-sided paralysis, and foot drop. During PT sessions, </w:t></w:r><w:r w:rsidR=\"007803CD\"><w:rPr><w:sz w:val=\"24\"/><w:szCs w:val=\"24\"/></w:rPr><w:t>you</w:t></w:r><w:r><w:rPr><w:sz w:val=\"24\"/><w:szCs w:val=\"24\"/></w:rPr><w:t xml:space=\"preserve\"> will work on functional tasks such as bed mobility, transfers, and standing/ambulation. Each session is tailored to </w:t></w:r><w:r w:rsidR=\"007803CD\"><w:rPr><w:sz w:val=\"24\"/><w:szCs w:val=\"24\"/></w:rPr><w:t>your</w:t></w:r><w:r><w:rPr><w:sz w:val=\"24\"/><w:szCs w:val=\"24\"/></w:rPr><w:t xml:space=\"preserve\"> individual needs.</w:t></w:r></w:p><w:p w:rsidR=\"00732176\" w:rsidRDefault=\"00732176\" w:rsidP=\"00732176\"><w:" ++
  "pPr><w:rPr><w:sz w:val=\"24\"/><w:szCs w:val=\"24\"/></w:rPr></w:pPr><w:r w:rsidRPr=\"00A8066F\"><w:rPr><w:sz w:val=\"28\"/><w:szCs w:val=\"28\"/></w:rPr><w:t>Occupational Therapy (OT)</w:t></w:r><w:r><w:rPr><w:sz w:val=\"24\"/><w:szCs w:val=\"24\"/></w:rPr><w:t xml:space=\"preserve\"> involves re-learning the skills used in everyday living. These skills include but are not limited to: dressing, bathing, eating, and going to the bathroom. OT will teach </w:t></w:r><w:r w:rsidR=\"007803CD\"><w:rPr><w:sz w:val=\"24\"/><w:szCs w:val=\"24\"/></w:rPr><w:t>you</w:t></w:r><w:r><w:rPr><w:sz w:val=\"24\"/><w:szCs w:val=\"24\"/></w:rPr><w:t xml:space=\"preserve\"> alternate strategies that will make everyday skills </w:t></w:r><" ++
  "w:r w:rsidR=\"00AF1A04\"><w:rPr><w:sz w:val=\"24\"/><w:szCs w:val=\"24\"/></w:rPr><w:t xml:space=\"preserve\">less taxing and set </w:t></w:r><w:r w:rsidR=\"007803CD\"><w:rPr><w:sz w:val=\"24\"/><w:szCs w:val=\"24\"/></w:rPr><w:t>you</w:t></w:r><w:r w:rsidR=\"00AF1A04\"><w:rPr><w:sz w:val=\"24\"/><w:szCs w:val=\"24\"/></w:rPr><w:t xml:space=\"preserve\"> up for success in self care.</w:t></w:r></w:p><w:p w:rsidR=\"00AF1A04\" w:rsidRDefault=\"00AF1A04\" w:rsidP=\"00732176\"><w:pPr><w:rPr><w:sz w:val=\"24\"/><w:szCs w:val=\"24\"/></w:rPr></w:pPr><w:r w:rsidRPr=\"00A8066F\"><w:rPr><w:sz w:val=\"28\"/><w:szCs w:val=\"28\"/></w:rPr><w:t>Speech Therapy (ST or SLT)</w:t></w:r><w:r><w:rPr><w:sz w:val=\"24\"/><w:szCs w:val=\"24\"/></w:rPr><w" ++
  ":t xml:space=\"preserve\"> helps reduce or compensate for problems </w:t></w:r><w:r w:rsidR=\"007803CD\"><w:rPr><w:sz w:val=\"24\"/><w:szCs w:val=\"24\"/></w:rPr><w:t xml:space=\"preserve\">in speech </w:t></w:r><w:r><w:rPr><w:sz w:val=\"24\"/><w:szCs w:val=\"24\"/></w:rPr><w:t>that may arise secondary to the stroke. These problems could include communicating, swallowi</w:t></w:r><w:r w:rsidR=\"007803CD\"><w:rPr><w:sz w:val=\"24\"/><w:szCs w:val=\"24\"/></w:rPr><w:t>ng, or thinking. Two conditions known as, dysarthria and aphasia (please see attached definition sheet for descriptions), can cause speech problems among stroke survivors. ST will address these issues as well as thinking problems brought about by th" ++
  "e stroke. A therapist will teach you and your family ways to help with these problems.</w:t></w:r></w:p><w:p w:rsidR=\"007803CD\" w:rsidRDefault=\"007803CD\" w:rsidP=\"00732176\"><w:pPr><w:rPr><w:sz w:val=\"24\"/><w:szCs w:val=\"24\"/></w:rPr></w:pPr><w:r w:rsidRPr=\"00A8066F\"><w:rPr><w:sz w:val=\"28\"/><w:szCs w:val=\"28\"/></w:rPr><w:t>Recreation Therapy</w:t></w:r><w:r><w:rPr><w:sz w:val=\"24\"/><w:szCs w:val=\"24\"/></w:rPr><w:t xml:space=\"preserve\"> serves the purpose of reintroducing social activities into your life. Activities might include…… This service is so important because it opens the opportunity to</w:t></w:r><w:r w:rsidR=\"00A8066F\"><w:rPr><w:sz w:val=\"24\"/><w:szCs w:val=\"24\"/></w:rPr><w:t xml:s" ++
  "pace=\"preserve\"> get back in the community and develop social skills again.</w:t></w:r></w:p><w:p w:rsidR=\"001275EE\" w:rsidRDefault=\"001275EE\" w:rsidP=\"00732176\"><w:pPr><w:rPr><w:sz w:val=\"24\"/><w:szCs w:val=\"24\"/></w:rPr></w:pPr></w:p><w:p w:rsidR=\"001275EE\" w:rsidRDefault=\"001275EE\" w:rsidP=\"00732176\"><w:pPr><w:rPr><w:sz w:val=\"24\"/><w:szCs w:val=\"24\"/></w:rPr></w:pPr></w:p><w:p w:rsidR=\"001275EE\" w:rsidRDefault=\"001275EE\" w:rsidP=\"00732176\"><w:pPr><w:rPr><w:sz w:val=\"24\"/><w:szCs w:val=\"24\"/></w:rPr></w:pPr></w:p><w:p w:rsidR=\"001275EE\" w:rsidRDefault=\"001275EE\" w:rsidP=\"00732176\"><w:pPr><w:rPr><w:sz w:val=\"24\"/><w:szCs w:val=\"24\"/></w:rPr></w:pPr></w:p><w:p w:rsidR=\"001275EE\" w:rsidRDefa" ++
  "ult=\"001275EE\" w:rsidP=\"00732176\"><w:pPr><w:rPr><w:sz w:val=\"24\"/><w:szCs w:val=\"24\"/></w:rPr></w:pPr></w:p><w:p w:rsidR=\"001275EE\" w:rsidRDefault=\"001275EE\" w:rsidP=\"00732176\"><w:pPr><w:rPr><w:sz w:val=\"24\"/><w:szCs w:val=\"24\"/></w:rPr></w:pPr></w:p><w:p w:rsidR=\"001275EE\" w:rsidRDefault=\"001275EE\" w:rsidP=\"001275EE\"><w:pPr><w:jc w:val=\"center\"/><w:rPr><w:b/><w:sz w:val=\"40\"/><w:szCs w:val=\"40\"/></w:rPr></w:pPr><w:r w:rsidRPr=\"001275EE\"><w:rPr><w:b/><w:sz w:val=\"40\"/><w:szCs w:val=\"40\"/></w:rPr><w:lastRenderedPageBreak/><w:t>Recurrent Strokes: How to lower your risk</w:t></w:r></w:p><w:p w:rsidR=\"001275EE\" w:rsidRDefault=\"001275EE\" w:rsidP=\"001275EE\"><w:pPr><w:rPr><w:sz w:val=\"24\"/><w:szCs " ++
  "w:val=\"24\"/></w:rPr></w:pPr><w:r><w:rPr><w:sz w:val=\"24\"/><w:szCs w:val=\"24\"/></w:rPr><w:t>After experiencing a stroke, most efforts are placed on the rehabilitation and recovery process. However, preventing a second stroke from occurring is an important consideration</w:t></w:r><w:r w:rsidR=\"00055DB8\"><w:rPr><w:sz w:val=\"24\"/><w:szCs w:val=\"24\"/></w:rPr><w:t xml:space=\"preserve\">. It is important to know the risk factors of stroke and what you can do to decrease the risk of another stroke. There are two types of risk factors- controllable and uncontrollable. One thing to remember, however, is that just because you have more than one of the uncontrollable risk factors </w:t></w:r><w:r w:rsid" ++
  "R=\"00055DB8\" w:rsidRPr=\"00055DB8\"><w:rPr><w:b/><w:sz w:val=\"24\"/><w:szCs w:val=\"24\"/></w:rPr><w:t>does not make you destined to have another stroke</w:t></w:r><w:r w:rsidR=\"00055DB8\"><w:rPr><w:sz w:val=\"24\"/><w:szCs w:val=\"24\"/></w:rPr><w:t>. With adequate attention to the controllable risk factors, the effect of the uncontrollable factors can be greatly reduced.</w:t></w:r></w:p><w:tbl><w:tblPr><w:tblStyle w:val=\"TableGrid\"/><w:tblW w:w=\"0\" w:type=\"auto\"/><w:tblLook w:val=\"04A0\"/></w:tblPr><w:tblGrid><w:gridCol w:w=\"4788\"/><w:gridCol w:w=\"4788\"/></w:tblGrid><w:tr w:rsidR=\"00055DB8\" w:rsidTr=\"00055DB8\"><w:tc><w:tcPr><w:tcW w:w=\"4788\" w:type=\"dxa\"/></w:tcPr><w:p w:rsidR=\"00055DB8\" w:rsidRDefa" ++
  "ult=\"00055DB8\" w:rsidP=\"001275EE\"><w:pPr><w:rPr><w:sz w:val=\"24\"/><w:szCs w:val=\"24\"/></w:rPr></w:pPr><w:r><w:rPr><w:sz w:val=\"24\"/><w:szCs w:val=\"24\"/></w:rPr><w:t>Uncontrollable Risk Factors:</w:t></w:r></w:p></w:tc><w:tc><w:tcPr><w:tcW w:w=\"4788\" w:type=\"dxa\"/></w:tcPr><w:p w:rsidR=\"00055DB8\" w:rsidRDefault=\"00055DB8\" w:rsidP=\"001275EE\"><w:pPr><w:rPr><w:sz w:val=\"24\"/><w:szCs w:val=\"24\"/></w:rPr></w:pPr><w:r><w:rPr><w:sz w:val=\"24\"/><w:szCs w:val=\"24\"/></w:rPr><w:t>Controllable Risk Factors:</w:t></w:r></w:p></w:tc></w:tr><w:tr w:rsidR=\"00055DB8\" w:rsidTr=\"00055DB8\"><w:tc><w:tcPr><w:tcW w:w=\"4788\" w:type=\"dxa\"/></w:tcPr><w:p w:rsidR=\"00055DB8\" w:rsidRDefault=\"00055DB8\" w:rsidP=\"001275EE\">" ++
  "<w:pPr><w:rPr><w:sz w:val=\"24\"/><w:szCs w:val=\"24\"/></w:rPr></w:pPr><w:r><w:rPr><w:sz w:val=\"24\"/><w:szCs w:val=\"24\"/></w:rPr><w:t>Age</w:t></w:r></w:p></w:tc><w:tc><w:tcPr><w:tcW w:w=\"4788\" w:type=\"dxa\"/></w:tcPr><w:p w:rsidR=\"00055DB8\" w:rsidRDefault=\"00055DB8\" w:rsidP=\"001275EE\"><w:pPr><w:rPr><w:sz w:val=\"24\"/><w:szCs w:val=\"24\"/></w:rPr></w:pPr><w:r><w:rPr><w:sz w:val=\"24\"/><w:szCs w:val=\"24\"/></w:rPr><w:t>High blood pressure</w:t></w:r></w:p></w:tc></w:tr><w:tr w:rsidR=\"00055DB8\" w:rsidTr=\"00055DB8\"><w:tc><w:tcPr><w:tcW w:w=\"4788\" w:type=\"dxa\"/></w:tcPr><w:p w:rsidR=\"00055DB8\" w:rsidRDefault=\"00055DB8\" w:rsidP=\"001275EE\"><w:pPr><w:rPr><w:sz w:val=\"24\"/><w:szCs w:val=\"24\"/></w:rPr></w:pP" ++
  "r><w:r><w:rPr><w:sz w:val=\"24\"/><w:szCs w:val=\"24\"/></w:rPr><w:t>Gender</w:t></w:r></w:p></w:tc><w:tc><w:tcPr><w:tcW w:w=\"4788\" w:type=\"dxa\"/></w:tcPr><w:p w:rsidR=\"00055DB8\" w:rsidRDefault=\"00055DB8\" w:rsidP=\"001275EE\"><w:pPr><w:rPr><w:sz w:val=\"24\"/><w:szCs w:val=\"24\"/></w:rPr></w:pPr><w:r><w:rPr><w:sz w:val=\"24\"/><w:szCs w:val=\"24\"/></w:rPr><w:t>Heart disease</w:t></w:r></w:p></w:tc></w:tr><w:tr w:rsidR=\"00055DB8\" w:rsidTr=\"00055DB8\"><w:tc><w:tcPr><w:tcW w:w=\"4788\" w:type=\"dxa\"/></w:tcPr><w:p w:rsidR=\"00055DB8\" w:rsidRDefault=\"00055DB8\" w:rsidP=\"001275EE\"><w:pPr><w:rPr><w:sz w:val=\"24\"/><w:szCs w:val=\"24\"/></w:rPr></w:pPr><w:r><w:rPr><w:sz w:val=\"24\"/><w:szCs w:val=\"24\"/></w:rPr><w:t>Race" ++
  "</w:t></w:r></w:p></w:tc><w:tc><w:tcPr><w:tcW w:w=\"4788\" w:type=\"dxa\"/></w:tcPr><w:p w:rsidR=\"00055DB8\" w:rsidRDefault=\"00055DB8\" w:rsidP=\"001275EE\"><w:pPr><w:rPr><w:sz w:val=\"24\"/><w:szCs w:val=\"24\"/></w:rPr></w:pPr><w:r><w:rPr><w:sz w:val=\"24\"/><w:szCs w:val=\"24\"/></w:rPr><w:t>Diabetes</w:t></w:r></w:p></w:tc></w:tr><w:tr w:rsidR=\"00055DB8\" w:rsidTr=\"00055DB8\"><w:tc><w:tcPr><w:tcW w:w=\"4788\" w:type=\"dxa\"/></w:tcPr><w:p w:rsidR=\"00055DB8\" w:rsidRDefault=\"00055DB8\" w:rsidP=\"001275EE\"><w:pPr><w:rPr><w:sz w:val=\"24\"/><w:szCs w:val=\"24\"/></w:rPr></w:pPr><w:r><w:rPr><w:sz w:val=\"24\"/><w:szCs w:val=\"24\"/></w:rPr><w:t>Family History of stroke</w:t></w:r></w:p></w:tc><w:tc><w:tcPr><w:tcW w:w=\"4788\"" ++
  " w:type=\"dxa\"/></w:tcPr><w:p w:rsidR=\"00055DB8\" w:rsidRDefault=\"00055DB8\" w:rsidP=\"001275EE\"><w:pPr><w:rPr><w:sz w:val=\"24\"/><w:szCs w:val=\"24\"/></w:rPr></w:pPr><w:r><w:rPr><w:sz w:val=\"24\"/><w:szCs w:val=\"24\"/></w:rPr><w:t>Cigarette smoking</w:t></w:r></w:p></w:tc></w:tr><w:tr w:rsidR=\"00055DB8\" w:rsidTr=\"00055DB8\"><w:tc><w:tcPr><w:tcW w:w=\"4788\" w:type=\"dxa\"/></w:tcPr><w:p w:rsidR=\"00055DB8\" w:rsidRDefault=\"00055DB8\" w:rsidP=\"001275EE\"><w:pPr><w:rPr><w:sz w:val=\"24\"/><w:szCs w:val=\"24\"/></w:rPr></w:pPr><w:r><w:rPr><w:sz w:val=\"24\"/><w:szCs w:val=\"24\"/></w:rPr><w:t>Family or personal history of diabetes</w:t></w:r></w:p></w:tc><w:tc><w:tcPr><w:tcW w:w=\"4788\" w:type=\"dxa\"/></w:tcPr><w:p w:rs" ++
  "idR=\"00055DB8\" w:rsidRDefault=\"00055DB8\" w:rsidP=\"001275EE\"><w:pPr><w:rPr><w:sz w:val=\"24\"/><w:szCs w:val=\"24\"/></w:rPr></w:pPr><w:r><w:rPr><w:sz w:val=\"24\"/><w:szCs w:val=\"24\"/></w:rPr><w:t>Alcohol consumption</w:t></w:r></w:p></w:tc></w:tr><w:tr w:rsidR=\"00055DB8\" w:rsidTr=\"00055DB8\"><w:tc><w:tcPr><w:tcW w:w=\"4788\" w:type=\"dxa\"/></w:tcPr><w:p w:rsidR=\"00055DB8\" w:rsidRDefault=\"00055DB8\" w:rsidP=\"001275EE\"><w:pPr><w:rPr><w:sz w:val=\"24\"/><w:szCs w:val=\"24\"/></w:rPr></w:pPr></w:p></w:tc><w:tc><w:tcPr><w:tcW w:w=\"4788\" w:type=\"dxa\"/></w:tcPr><w:p w:rsidR=\"00055DB8\" w:rsidRDefault=\"00055DB8\" w:rsidP=\"001275EE\"><w:pPr><w:rPr><w:sz w:val=\"24\"/><w:szCs w:val=\"24\"/></w:rPr></w:pPr><w:r><w:rPr><w:s" ++
  "z w:val=\"24\"/><w:szCs w:val=\"24\"/></w:rPr><w:t>High blood cholesterol</w:t></w:r></w:p></w:tc></w:tr><w:tr w:rsidR=\"00055DB8\" w:rsidTr=\"00055DB8\"><w:tc><w:tcPr><w:tcW w:w=\"4788\" w:type=\"dxa\"/></w:tcPr><w:p w:rsidR=\"00055DB8\" w:rsidRDefault=\"00055DB8\" w:rsidP=\"001275EE\"><w:pPr><w:rPr><w:sz w:val=\"24\"/><w:szCs w:val=\"24\"/></w:rPr></w:pPr></w:p></w:tc><w:tc><w:tcPr><w:tcW w:w=\"4788\" w:type=\"dxa\"/></w:tcPr><w:p w:rsidR=\"00055DB8\" w:rsidRDefault=\"002E4B72\" w:rsidP=\"001275EE\"><w:pPr><w:rPr><w:sz w:val=\"24\"/><w:szCs w:val=\"24\"/></w:rPr></w:pPr><w:r><w:rPr><w:sz w:val=\"24\"/><w:szCs w:val=\"24\"/></w:rPr><w:t>Illegal</w:t></w:r><w:r w:rsidR=\"00055DB8\"><w:rPr><w:sz w:val=\"24\"/><w:szCs w:val=\"24\"/></w:rP" ++
  "r><w:t xml:space=\"preserve\"> drug use</w:t></w:r></w:p></w:tc></w:tr></w:tbl><w:p w:rsidR=\"00055DB8\" w:rsidRDefault=\"00055DB8\" w:rsidP=\"001275EE\"><w:pPr><w:rPr><w:sz w:val=\"24\"/><w:szCs w:val=\"24\"/></w:rPr></w:pPr></w:p><w:p w:rsidR=\"00055DB8\" w:rsidRDefault=\"00055DB8\" w:rsidP=\"001275EE\"><w:pPr><w:rPr><w:sz w:val=\"24\"/><w:szCs w:val=\"24\"/></w:rPr></w:pPr><w:r><w:rPr><w:sz w:val=\"24\"/><w:szCs w:val=\"24\"/></w:rPr><w:t xml:space=\"preserve\">Please note, everyone has some stroke risk, but making some simple lifestyle changes may reduce the risk of another stroke. Some risk factors cannot be changed such as being over age 55, male, African American, family history of stroke, or personal history or" ++
  " diabetes. From the chart above it is noted that these are risk factors that are </w:t></w:r><w:r w:rsidRPr=\"00DB0519\"><w:rPr><w:b/><w:sz w:val=\"24\"/><w:szCs w:val=\"24\"/></w:rPr><w:t>uncontrollable</w:t></w:r><w:r><w:rPr><w:sz w:val=\"24\"/><w:szCs w:val=\"24\"/></w:rPr><w:t>.</w:t></w:r></w:p><w:p w:rsidR=\"00055DB8\" w:rsidRDefault=\"00055DB8\" w:rsidP=\"001275EE\"><w:pPr><w:rPr><w:sz w:val=\"24\"/><w:szCs w:val=\"24\"/></w:rPr></w:pPr><w:r><w:rPr><w:sz w:val=\"24\"/><w:szCs w:val=\"24\"/></w:rPr><w:t>AGE: the chance of having a stroke increases with age. Stroke risk doubles with each decade past age 55.</w:t></w:r></w:p><w:p w:rsidR=\"00055DB8\" w:rsidRDefault=\"00055DB8\" w:rsidP=\"001275EE\"><w:pPr><w:rPr><w:s" ++
  "z w:val=\"24\"/><w:szCs w:val=\"24\"/></w:rPr></w:pPr><w:r><w:rPr><w:sz w:val=\"24\"/><w:szCs w:val=\"24\"/></w:rPr><w:t>GENDER: males have a higher risk than females.</w:t></w:r></w:p><w:p w:rsidR=\"00055DB8\" w:rsidRDefault=\"00055DB8\" w:rsidP=\"001275EE\"><w:pPr><w:rPr><w:sz w:val=\"24\"/><w:szCs w:val=\"24\"/></w:rPr></w:pPr><w:r><w:rPr><w:sz w:val=\"24\"/><w:szCs w:val=\"24\"/></w:rPr><w:t>RACE: African-Americans have a higher risk than most other racial groups. This is due to African-Americans having a higher incidence of other factors such as h</w:t></w:r><w:r w:rsidR=\"00DB0519\"><w:rPr><w:sz w:val=\"24\"/><w:szCs w:val=\"24\"/></w:rPr><w:t>igh blood pressure</w:t></w:r><w:r><w:rPr><w:sz w:val=\"24\"/><w:szCs w:" ++
  "val=\"24\"/></w:rPr><w:t>, diabetes, sickle cell anemia, and smoking.</w:t></w:r></w:p><w:p w:rsidR=\"00DB0519\" w:rsidRDefault=\"00DB0519\" w:rsidP=\"001275EE\"><w:pPr><w:rPr><w:sz w:val=\"24\"/><w:szCs w:val=\"24\"/></w:rPr></w:pPr><w:r><w:rPr><w:sz w:val=\"24\"/><w:szCs w:val=\"24\"/></w:rPr><w:t>FAMILY HISTORY: the risk increases with a family history.</w:t></w:r></w:p><w:p w:rsidR=\"00DB0519\" w:rsidRDefault=\"00DB0519\" w:rsidP=\"001275EE\"><w:pPr><w:rPr><w:sz w:val=\"24\"/><w:szCs w:val=\"24\"/></w:rPr></w:pPr><w:r><w:rPr><w:sz w:val=\"24\"/><w:szCs w:val=\"24\"/></w:rPr><w:t xml:space=\"preserve\">FAMILY OR PERSONAL HISTORY OF DIABETES: the increased risk for stroke may be related to circulation problems that occur" ++
  " with diabetes. </w:t></w:r></w:p><w:p w:rsidR=\"00DB0519\" w:rsidRDefault=\"00DB0519\" w:rsidP=\"001275EE\"><w:pPr><w:rPr><w:sz w:val=\"24\"/><w:szCs w:val=\"24\"/></w:rPr></w:pPr><w:r><w:rPr><w:b/><w:sz w:val=\"24\"/><w:szCs w:val=\"24\"/></w:rPr><w:t>Controllable Risk Factors</w:t></w:r><w:r><w:rPr><w:sz w:val=\"24\"/><w:szCs w:val=\"24\"/></w:rPr><w:t xml:space=\"preserve\"> are those that can be affected by lifestyle changes.</w:t></w:r></w:p><w:p w:rsidR=\"00DB0519\" w:rsidRPr=\"00DB0519\" w:rsidRDefault=\"00DB0519\" w:rsidP=\"001275EE\"><w:pPr><w:rPr><w:sz w:val=\"24\"/><w:szCs w:val=\"24\"/></w:rPr></w:pPr><w:r><w:rPr><w:sz w:val=\"24\"/><w:szCs w:val=\"24\"/></w:rPr><w:lastRenderedPageBreak/><w:t xml:space=\"preserve\">" ++
  "HIGH BLOOD PRESSURE: </w:t></w:r><w:r><w:rPr><w:b/><w:sz w:val=\"24\"/><w:szCs w:val=\"24\"/></w:rPr><w:t xml:space=\"preserve\">the most powerful risk factor!! </w:t></w:r><w:r><w:rPr><w:sz w:val=\"24\"/><w:szCs w:val=\"24\"/></w:rPr><w:t xml:space=\"preserve\">People who have high blood pressure are at 4 to 6 times higher risk than those without high blood pressure. Normal blood pressure is considered to be </w:t></w:r><w:r w:rsidR=\"00F33D04\"><w:rPr><w:sz w:val=\"24\"/><w:szCs w:val=\"24\"/></w:rPr><w:t xml:space=\"preserve\">a systolic pressure of </w:t></w:r><w:r><w:rPr><w:sz w:val=\"24\"/><w:szCs w:val=\"24\"/></w:rPr><w:t xml:space=\"preserve\">120 </w:t></w:r><w:r w:rsidR=\"00F33D04\"><w:rPr><w:sz w:val=\"24\"/>" ++
  "<w:szCs w:val=\"24\"/></w:rPr><w:t xml:space=\"preserve\">mmHg over a diastolic pressure of </w:t></w:r><w:r><w:rPr><w:sz w:val=\"24\"/><w:szCs w:val=\"24\"/></w:rPr><w:t>80 mmHg. High blood pressure is diagnosed as persistently high pressure greater than 140 over 90 mmHg.</w:t></w:r></w:p><w:p w:rsidR=\"00DB0519\" w:rsidRDefault=\"00DB0519\" w:rsidP=\"001275EE\"><w:pPr><w:rPr><w:sz w:val=\"24\"/><w:szCs w:val=\"24\"/></w:rPr></w:pPr><w:r><w:rPr><w:sz w:val=\"24\"/><w:szCs w:val=\"24\"/></w:rPr><w:t>HEART DISEASE:</w:t></w:r><w:r><w:rPr><w:b/><w:sz w:val=\"24\"/><w:szCs w:val=\"24\"/></w:rPr><w:t xml:space=\"preserve\"> </w:t></w:r><w:r><w:rPr><w:sz w:val=\"24\"/><w:szCs w:val=\"24\"/></w:rPr><w:t xml:space=\"preserve\">the " ++
  "second most powerful risk factor, especially with a condition of atrial fibrillation. </w:t></w:r><w:r w:rsidR=\"00F33D04\"><w:rPr><w:sz w:val=\"24\"/><w:szCs w:val=\"24\"/></w:rPr><w:t xml:space=\"preserve\">Atrial fibrillation causes one part of the heart to beat up to four times faster than the rest of the heart. </w:t></w:r><w:r><w:rPr><w:sz w:val=\"24\"/><w:szCs w:val=\"24\"/></w:rPr><w:t xml:space=\"preserve\">This condition occurs when the heart beat is irregular which can lead to blood clots that </w:t></w:r><w:r w:rsidR=\"00F33D04\"><w:rPr><w:sz w:val=\"24\"/><w:szCs w:val=\"24\"/></w:rPr><w:t xml:space=\"preserve\">leave the heart and </w:t></w:r><w:r><w:rPr><w:sz w:val=\"24\"/><w:szCs w:val=\"24\"/></w:rPr" ++
  "><w:t>travel to the brain.</w:t></w:r></w:p><w:p w:rsidR=\"00DB0519\" w:rsidRDefault=\"00DB0519\" w:rsidP=\"001275EE\"><w:pPr><w:rPr><w:sz w:val=\"24\"/><w:szCs w:val=\"24\"/></w:rPr></w:pPr><w:r><w:rPr><w:sz w:val=\"24\"/><w:szCs w:val=\"24\"/></w:rPr><w:t xml:space=\"preserve\">DIABETES: </w:t></w:r><w:r w:rsidR=\"00E568A2\"><w:rPr><w:sz w:val=\"24\"/><w:szCs w:val=\"24\"/></w:rPr><w:t>increases the risk for stroke three times that of someone who does not have diabetes. E</w:t></w:r><w:r><w:rPr><w:sz w:val=\"24\"/><w:szCs w:val=\"24\"/></w:rPr><w:t>"

/-- Text of the hard-coded template after the last occurrence of
`corruptionSentence`. -/
def htTail : String := "</w:t></w:r></w:p>\n  </w:body>\n</w:document>"

/-- Everything in the template up to (and including) the end of the last
occurrence of `corruptionSentence` — exactly what `substring(0, corruptionPoint
+ sentence.length)` keeps. -/
def healthTemplatePre : String := htPreA ++ healthPhrase ++ htPreB ++ corruptionSentence

/-- The hard-coded `expectedContent` template of `extractXmlFromRawData`
(index.ts:1127-1130), assembled from the chunks above; their concatenation is
the verbatim source literal. -/
def healthTemplate : String := healthTemplatePre ++ htTail

/-- The closing tags `extractXmlFromRawData` appends to the truncated template. -/
def closingSuffix : String :=
  "</w:t></w:r></w:p>\n  </w:body>\n</w:document>"

/-- The minimal replacement XML for `word/document.xml` (the `xmlContent` built
when every decompression method fails). -/
def docMinimalXml : String :=
  "<?xml version=\"1.0\" encoding=\"UTF-8\" standalone=\"yes\"?>\n<w:document xmlns:w=\"http://schemas.openxmlformats.org/wordprocessingml/2006/main\" xmlns:r=\"http://schemas.openxmlformats.org/officeDocument/2006/relationships\">\n  <w:body>\n    <w:p>\n      <w:r>\n        <w:t>Document content could not be recovered due to severe corruption. Please check the original file.</w:t>\n      </w:r>\n    </w:p>\n  </w:body>\n</w:document>"

/-- The generic minimal replacement XML for other `.xml` entries
(`File ${filename} recovered with minimal content`). -/
def genericMinimalXml (filename : String) : String :=
  "<?xml version=\"1.0\" encoding=\"UTF-8\" standalone=\"yes\"?>\n<root>\n  <!-- File " ++ filename ++ " recovered with minimal content -->\n</root>"

/-- `extractXmlFromRawData(compressedData)` (index.ts:1120-1150): decodes the
input (the decoded text is then never used by the source), looks up the last
occurrence of `corruptionSentence` in the hard-coded template and, when found
at a positive index, returns the template up to the end of that occurrence
with closing tags appended; `none` models `return null`. -/
def extractXmlFromRawData (compressedData : List Nat) : Option String :=
  let _textContent := utf8Decode compressedData
  let corruptionPoint :=
    lastIndexOfJS corruptionSentence.data healthTemplate.data
  if corruptionPoint > 0 then
    some (String.mk (healthTemplate.data.take
      (corruptionPoint + (corruptionSentence.data.length : Int)).toNat ++
        closingSuffix.data))
  else none

/-- The check `xmlText.includes('<?xml') || xmlText.includes('<w:')` applied
to probe results. -/
def hasXmlMarker (cs : List Char) : Bool :=
  containsSub cs "<?xml".data || containsSub cs "<w:".data

/-- The corrupted-header probe loop (index.ts:678-702): try raw deflate at
each start offset `0 ≤ off < min(20, length)` and keep the first result that
looks like XML. -/
def probeOffsets (inflateRaw : List Nat → Option (List Nat)) (cd : List Nat) :
    Option (List Nat) :=
  (List.range (min 20 cd.length)).findSome? fun off =>
    match inflateRaw (cd.drop off) with
    | some d => if hasXmlMarker (utf8Decode d) then some d else none
    | none => none

/-- The zlib header byte pairs searched by the stream-scan branch
(`deflateSignatures = [0x78, 0x9C, 0x78, 0xDA, 0x78, 0x01]`, consumed two at
a time). -/
def deflateSigPairs : List (Nat × Nat) := [(0x78, 0x9C), (0x78, 0xDA), (0x78, 0x01)]

/-- The zlib-signature scan (index.ts:705-742): for each position
`0 ≤ i < length - 10` whose two bytes match a zlib header, try zlib-wrapped
deflate from there; keep the first result that looks like XML. -/
def sigScanZlib (inflateZlib : List Nat → Option (List Nat)) (cd : List Nat) :
    Option (List Nat) :=
  (List.range (cd.length - 10)).findSome? fun i =>
    deflateSigPairs.findSome? fun p =>
      if cd.getD i 0 == p.1 && cd.getD (i + 1) 0 == p.2 then
        match inflateZlib (cd.drop i) with
        | some d => if hasXmlMarker (utf8Decode d) then some d else none
        | none => none
      else none

/-- The minimal XML replacement content created when every decompression
method fails for an `.xml` entry (index.ts:763-789). -/
def minimalXmlFor (filename : String) : List Nat :=
  if filename = "word/document.xml" then utf8Encode docMinimalXml.data
  else utf8Encode (genericMinimalXml filename).data

/-- The whole method-8 (deflate) recovery cascade of `parseLocalFileHeader`
(index.ts:626-800): raw deflate, then zlib deflate, then — for `.xml` names
only — the offset probe, the zlib-signature scan, the raw template extraction
(`word/document.xml` only) and the minimal replacement; non-`.xml` entries
fall through to the raw compressed bytes. -/
def deflatePath (inflateRaw inflateZlib : List Nat → Option (List Nat))
    (filename : String) (compressedData : List Nat) : List Nat :=
  match inflateRaw compressedData with
  | some d => d
  | none =>
  match inflateZlib compressedData with
  | some d => d
  | none =>
  if endsWithS filename ".xml" then
    match probeOffsets inflateRaw compressedData with
    | some d => d
    | none =>
    match sigScanZlib inflateZlib compressedData with
    | some d => d
    | none =>
    if filename = "word/document.xml" then
      match extractXmlFromRawData compressedData with
      | some x => if x.length > 1000 then utf8Encode x.data else minimalXmlFor filename
      | none => minimalXmlFor filename
    else minimalXmlFor filename
  else compressedData

/-- The record returned by `parseLocalFileHeader`, extended with the header
fields and the data range `[dataStart, dataEnd)` the source computes as
locals, so that claims about the compressed range can be stated. -/
structure ParsedEntry where
  filename : String
  method : Nat
  declaredCompressedSize : Nat
  dataStart : Nat
  dataEnd : Nat
  data : List Nat
deriving DecidableEq, Repr

/-- `parseLocalFileHeader(data, offset)` (index.ts:581-815). `none` models
both `return null` and the catch-all `catch { return null }`. The external
`DecompressionStream('deflate-raw')` / `DecompressionStream('deflate')`
decoders are the `inflateRaw` / `inflateZlib` parameters. -/
def parseLocalFileHeader (inflateRaw inflateZlib : List Nat → Option (List Nat))
    (data : List Nat) (offset : Nat) : Option ParsedEntry :=
  if offset + 30 > data.length then none
  else
    let filenameLength := readLE16 data (offset + 26)
    let extraFieldLength := readLE16 data (offset + 28)
    let compressedSize := readLE32 data (offset + 18)
    let _uncompressedSize := readLE32 data (offset + 22)
    let compressionMethod := readLE16 data (offset + 8)
    let filenameStart := offset + 30
    let dataStart := filenameStart + filenameLength + extraFieldLength
    if filenameStart + filenameLength > data.length then none
    else
      let filename :=
        String.mk (utf8Decode (sliceJS data filenameStart (filenameStart + filenameLength)))
      if endsWithS filename "/" then none
      else
        let dataEnd :=
          if compressedSize > 0 ∧ dataStart + compressedSize ≤ data.length then
            dataStart + compressedSize
          else nextSigEnd data dataStart
        let compressedData := sliceJS data dataStart dataEnd
        let fileData :=
          if compressionMethod == 8 then
            deflatePath inflateRaw inflateZlib filename compressedData
          else compressedData
        some ⟨filename, compressionMethod, compressedSize, dataStart, dataEnd, fileData⟩

/-- The recovery loop of `fallbackZipRepair` (index.ts:550-562): parse each
discovered header offset, and add every parse that yields a truthy filename
not ending in `/` to the rebuilt archive (a `Uint8Array` is always truthy, so
the `fileInfo.data` check never filters). -/
def recoverLoop (inflateRaw inflateZlib : List Nat → Option (List Nat))
    (data : List Nat) : List Nat → List (String × List Nat)
  | [] => []
  | off :: rest =>
    match parseLocalFileHeader inflateRaw inflateZlib data off with
    | some e =>
      if e.filename ≠ "" ∧ ¬ endsWithS e.filename "/" then
        (e.filename, e.data) :: recoverLoop inflateRaw inflateZlib data rest
      else recoverLoop inflateRaw inflateZlib data rest
    | none => recoverLoop inflateRaw inflateZlib data rest

/-- The ordered sequence of files `fallbackZipRepair` hands to the rebuilt
archive, in discovery order. -/
def recoveredFiles (inflateRaw inflateZlib : List Nat → Option (List Nat))
    (data : List Nat) : List (String × List Nat) :=
  recoverLoop inflateRaw inflateZlib data (localFileHeaders data)

/-- `fallbackZipRepair` up to the JSZip rebuild boundary (index.ts:525-578):
scan, parse and collect entries; `throw new Error(...)` when nothing was
recovered is modelled as `Except.error`. The final `newZip.generateAsync`
call is the external archive-writer library, outside the modelled core; its
input is exactly the returned entry list, in order. -/
def fallbackZipRepair (inflateRaw inflateZlib : List Nat → Option (List Nat))
    (data : List Nat) : Except String (List (String × List Nat)) :=
  let files := recoveredFiles inflateRaw inflateZlib data
  if files.length = 0 then Except.error "No files could be recovered from corrupt ZIP"
  else Except.ok files

/-- An inflate decoder that rejects every input — the behaviour of the real
`DecompressionStream` on the garbage byte strings used in the concrete
witnesses below. -/
def noInflate : List Nat → Option (List Nat) := fun _ => none

/-- JavaScript `\s` whitespace test (the ASCII whitespace characters plus
NBSP; all inputs used by the theorems below are ASCII). -/
def isSpaceJS (c : Char) : Bool :=
  c == ' ' || c == '\t' || c == '\n' || c == '\r' ||
    c == Char.ofNat 0x0B || c == Char.ofNat 0x0C || c == Char.ofNat 0xA0

/-- `s.replace(/\s+/g, ' ')`: every maximal whitespace run becomes one space. -/
def collapseWs : List Char → List Char
  | [] => []
  | [c] => if isSpaceJS c then [' '] else [c]
  | c :: d :: rest =>
    if isSpaceJS c && isSpaceJS d then collapseWs (d :: rest)
    else (if isSpaceJS c then ' ' else c) :: collapseWs (d :: rest)

/-- `s.trim()`. -/
def trimL (s : List Char) : List Char :=
  ((s.dropWhile isSpaceJS).reverse.dropWhile isSpaceJS).reverse

/-- `s.split(/\s+/)`: parts between maximal whitespace runs, with JavaScript's
empty leading/trailing parts when the string starts or ends with a run. -/
def splitWs : List Char → List (List Char) := go []
where go (cur : List Char) : List Char → List (List Char)
  | [] => [cur.reverse]
  | [c] => if isSpaceJS c then [cur.reverse, []] else [(c :: cur).reverse]
  | c :: d :: rest =>
    if isSpaceJS c then
      (if isSpaceJS d then go cur (d :: rest)
       else cur.reverse :: go [] (d :: rest))
    else go (c :: cur) (d :: rest)

/-- The suffix after the first `>` of `s`, if any. -/
def findGtSuffix : List Char → Option (List Char)
  | [] => none
  | c :: rest => if c == '>' then some rest else findGtSuffix rest

/-- `s.replace(/<[^>]*>/g, repl)`: every span from a `<` to the first
following `>` is replaced by `repl`; a `<` with no later `>` is kept.
Fuel-based (each replacement consumes at least two characters). -/
def stripTagsF (repl : List Char) : Nat → List Char → List Char
  | 0, s => s
  | _ + 1, [] => []
  | fuel + 1, c :: rest =>
    if c == '<' then
      match findGtSuffix rest with
      | some after => repl ++ stripTagsF repl fuel after
      | none => c :: rest
    else c :: stripTagsF repl fuel rest

/-- `s.replace(/<[^>]*>/g, repl)` with sufficient fuel. -/
def stripTags (repl : List Char) (s : List Char) : List Char :=
  stripTagsF repl s.length s

/-- `array.join(' ')`. -/
def joinSpace : List (List Char) → List Char
  | [] => []
  | [x] => x
  | x :: y :: rest => x ++ ' ' :: joinSpace (y :: rest)

/-- One attempt of the regex `<w:t[^>]*>(.*?)<\/w:t>` anchored at the head of
`s`: the opening tag runs from `<w:t` to the first `>`; the lazy capture runs
to the first `</w:t>`; without the `s` flag (`dotall = false`) the capture
may not contain a newline. Returns (full match, capture, rest after match). -/
def wtMatchHere (dotall : Bool) (s : List Char) :
    Option (List Char × List Char × List Char) :=
  if "<w:t".data.isPrefixOf s then
    match findSub [('>' : Char)] (s.drop 4) with
    | none => none
    | some g =>
      let tagLen := 4 + g + 1
      let body := s.drop tagLen
      match findSub "</w:t>".data body with
      | none => none
      | some m =>
        let cap := body.take m
        if dotall || !cap.contains '\n' then
          some (s.take (tagLen + m + 6), cap, s.drop (tagLen + m + 6))
        else none
  else none

/-- Leftmost match: the regex engine retries at each successive start
position. -/
def wtFindMatch (dotall : Bool) : List Char → Option (List Char × List Char × List Char)
  | [] => none
  | c :: rest =>
    match wtMatchHere dotall (c :: rest) with
    | some r => some r
    | none => wtFindMatch dotall rest

/-- All matches of the `g`-flagged regex in order
(`while ((match = regex.exec(xml)) !== null)`, or `xml.match(/.../g)`);
fuel-based (every match consumes at least one character). -/
def wtExecF (dotall : Bool) : Nat → List Char → List (List Char × List Char)
  | 0, _ => []
  | fuel + 1, s =>
    match wtFindMatch dotall s with
    | none => []
    | some (full, cap, rest) => (full, cap) :: wtExecF dotall fuel rest

/-- All matches of `<w:t[^>]*>(.*?)<\/w:t>` with sufficient fuel. -/
def wtExec (dotall : Bool) (s : List Char) : List (List Char × List Char) :=
  wtExecF dotall (s.length + 1) s

/-- `extractTextFromDocumentXml(xmlContent)` (index.ts:429-439): the full
matches of `/<w:t[^>]*>(.*?)<\/w:t>/g` (no `s` flag), each stripped of all
tags, joined by single spaces, whitespace-collapsed and trimmed; the empty
string when the regex does not match (`match` returns `null`). -/
def extractTextFromDocumentXml (xmlContent : String) : String :=
  let textMatches := (wtExec false xmlContent.data).map (·.1)
  match textMatches with
  | [] => ""
  | ms => String.mk (trimL (collapseWs (joinSpace (ms.map (stripTags [])))))

/-- First position in `s` where `</p>` or `</para>` begins (the alternation
`<\/(?:p|para)>` reached by the lazy capture), with the length of the closing
tag matched there. -/
def paraFindClose : List Char → Option (Nat × Nat)
  | [] => none
  | c :: rest =>
    if "</p>".data.isPrefixOf (c :: rest) then some (0, 4)
    else if "</para>".data.isPrefixOf (c :: rest) then some (0, 7)
    else (paraFindClose rest).map (fun p => (p.1 + 1, p.2))

/-- One attempt of `<(?:p|para)[^>]*>(.*?)<\/(?:p|para)>` (with the `s` flag)
anchored at the head of `s`: returns (capture, rest after the match). -/
def paraMatchHere (s : List Char) : Option (List Char × List Char) :=
  if "<p".data.isPrefixOf s then
    match findSub [('>' : Char)] (s.drop 2) with
    | none => none
    | some g =>
      let tagLen := 2 + g + 1
      let body := s.drop tagLen
      match paraFindClose body with
      | none => none
      | some (m, clen) => some (body.take m, s.drop (tagLen + m + clen))
  else none

/-- Leftmost paragraph-regex match. -/
def paraFindMatch : List Char → Option (List Char × List Char)
  | [] => none
  | c :: rest =>
    match paraMatchHere (c :: rest) with
    | some r => some r
    | none => paraFindMatch rest

/-- All captures of the paragraph regex, in order; fuel-based. -/
def paraExecF : Nat → List Char → List (List Char)
  | 0, _ => []
  | fuel + 1, s =>
    match paraFindMatch s with
    | none => []
    | some (cap, rest) => cap :: paraExecF fuel rest

/-- All captures of `<(?:p|para)[^>]*>(.*?)<\/(?:p|para)>` with fuel. -/
def paraExec (s : List Char) : List (List Char) := paraExecF (s.length + 1) s

/-- `s.replace(pat, repl)` with a global pattern: every non-overlapping
leftmost occurrence of `pat` becomes `repl`. Fuel-based. -/
def replaceAllF (pat repl : List Char) : Nat → List Char → List Char
  | 0, s => s
  | _ + 1, [] => []
  | fuel + 1, c :: rest =>
    if pat.isPrefixOf (c :: rest) then
      repl ++ replaceAllF pat repl fuel ((c :: rest).drop pat.length)
    else c :: replaceAllF pat repl fuel rest

/-- `s.replace(pat, repl)` (global) with sufficient fuel. -/
def replaceAll (pat repl s : List Char) : List Char :=
  replaceAllF pat repl s.length s

/-- The five sequential entity decodes of the generic branch of
`extractTextFromXml` (part_002:1867-1871), `&amp;` first. -/
def decodeEntities (s : List Char) : List Char :=
  replaceAll "&apos;".data [Char.ofNat 39]
    (replaceAll "&quot;".data "\"".data
      (replaceAll "&gt;".data ">".data
        (replaceAll "&lt;".data "<".data
          (replaceAll "&amp;".data "&".data s))))

/-- The stop list of
`^(xml|PK|Content|Types|rels|word|document|theme|settings|styles|core|numbering|fontTable|docProps)$/i`,
lowercased for the case-insensitive full-word match. -/
def stopWords : List (List Char) :=
  ["xml".data, "pk".data, "content".data, "types".data, "rels".data, "word".data,
   "document".data, "theme".data, "settings".data, "styles".data, "core".data,
   "numbering".data, "fonttable".data, "docprops".data]

/-- Case-insensitive membership in the stop list. -/
def isStopWord (w : List Char) : Bool :=
  stopWords.contains (w.map Char.toLower)

/-- The `<w:t>`-capture stage of `extractTextFromXml` (part_002:1834-1842):
captures of `/<w:t[^>]*>(.*?)<\/w:t>/gs` that are nonempty, trim nonempty and
longer than 2, stored trimmed. -/
def wordSegs (xml : String) : List (List Char) :=
  ((wtExec true xml.data).map (·.2)).filterMap fun c =>
    if c ≠ [] ∧ trimL c ≠ [] ∧ c.length > 2 then some (trimL c) else none

/-- The paragraph stage of `extractTextFromXml` (part_002:1851-1858): each
capture has its tags replaced by spaces and is trimmed, and is kept when
nonempty and longer than 10. -/
def paraSegs (xml : String) : List (List Char) :=
  (paraExec xml.data).filterMap fun c =>
    let content := trimL (stripTags [' '] c)
    if content ≠ [] ∧ content.length > 10 then some content else none

/-- The generic fallback stage of `extractTextFromXml` (part_002:1864-1884):
strip tags to spaces, decode entities, collapse whitespace, trim, split on
whitespace, and keep words longer than 3 that start with an ASCII letter and
are not stop words. -/
def genericWords (xml : String) : List (List Char) :=
  (splitWs (trimL (collapseWs (decodeEntities (stripTags [' '] xml.data))))).filter
    fun w => w.length > 3 &&
      (match w with | c :: _ => c.isAlpha | [] => false) && !isStopWord w

/-- `extractTextFromXml(xmlContent)` (part_002:1829-1892): the three-stage
fallback chain, returning the empty string when every stage falls below its
threshold. -/
def extractTextFromXml (xmlContent : String) : String :=
  if (wordSegs xmlContent).length > 5 then String.mk (joinSpace (wordSegs xmlContent))
  else if paraSegs xmlContent ≠ [] then String.mk (joinSpace (paraSegs xmlContent))
  else if (genericWords xmlContent).length > 20 then
    String.mk (joinSpace (genericWords xmlContent))
  else ""

/-! ### Characterisation of the signature scan -/

lemma scanF_eq (data : List Nat) :
    ∀ (fuel i : Nat), data.length - 4 - i ≤ fuel →
      scanF data fuel i = (List.range' i (data.length - 4 - i)).filter (sigAt data) := by
  intro fuel
  induction fuel with
  | zero =>
    intro i h
    have h0 : data.length - 4 - i = 0 := Nat.le_zero.mp h
    simp [scanF, h0]
  | succ n ih =>
    intro i h
    by_cases hi : i < data.length - 4
    · have hsub : data.length - 4 - i = (data.length - 4 - (i + 1)) + 1 := by omega
      have hfuel : data.length - 4 - (i + 1) ≤ n := by omega
      rw [hsub, List.range'_succ, List.filter_cons]
      cases hs : sigAt data i <;>
        simp [scanF, hi, hs, ih (i + 1) hfuel]
    · have h0 : data.length - 4 - i = 0 := by omega
      simp [scanF, hi, h0]

lemma localFileHeaders_eq (data : List Nat) :
    localFileHeaders data = (List.range (data.length - 4)).filter (sigAt data) := by
  rw [localFileHeaders, scanF_eq data data.length 0 (by omega), List.range_eq_range']
  simp

lemma localFileHeaders_sorted (data : List Nat) :
    List.Pairwise (· < ·) (localFileHeaders data) := by
  rw [localFileHeaders_eq]
  exact (List.pairwise_lt_range _).filter _

/-! ### Characterisation of the truncation clamp loop -/

lemma nextSigEndF_le (data : List Nat) :
    ∀ (fuel i : Nat), nextSigEndF data fuel i ≤ data.length := by
  intro fuel
  induction fuel with
  | zero => intro i; simp [nextSigEndF]
  | succ n ih =>
    intro i
    rw [nextSigEndF]
    by_cases hi : i < data.length - 4
    · cases hs : sigAt data i <;> simp [hi, hs, ih (i + 1)]
      omega
    · simp [hi]

lemma nextSigEndF_eq (data : List Nat) :
    ∀ (fuel i : Nat), data.length - 4 - i ≤ fuel →
      nextSigEndF data fuel i =
        (((List.range' i (data.length - 4 - i)).filter (sigAt data)).head?).getD
          data.length := by
  intro fuel
  induction fuel with
  | zero =>
    intro i h
    have h0 : data.length - 4 - i = 0 := Nat.le_zero.mp h
    simp [nextSigEndF, h0]
  | succ n ih =>
    intro i h
    by_cases hi : i < data.length - 4
    · have hsub : data.length - 4 - i = (data.length - 4 - (i + 1)) + 1 := by omega
      have hfuel : data.length - 4 - (i + 1) ≤ n := by omega
      rw [hsub, List.range'_succ, List.filter_cons]
      cases hs : sigAt data i <;>
        simp [nextSigEndF, hi, hs, ih (i + 1) hfuel]
    · have h0 : data.length - 4 - i = 0 := by omega
      simp [nextSigEndF, hi, h0]

lemma range_filter_gt (N d : Nat) :
    (List.range N).filter (fun j => decide (d < j)) = List.range' (d + 1) (N - (d + 1)) := by
  by_cases h : d + 1 ≤ N
  · have happ : List.range' 0 (d + 1) ++ List.range' (d + 1) (N - (d + 1)) = List.range N := by
      have := List.range'_append 0 (d + 1) (N - (d + 1)) 1
      simp only [Nat.zero_add, Nat.one_mul] at this
      rw [List.range_eq_range']
      rw [this]
      congr 1
      omega
    rw [← happ, List.filter_append]
    have h1 : (List.range' 0 (d + 1)).filter (fun j => decide (d < j)) = [] := by
      refine List.filter_eq_nil_iff.mpr ?_
      intro a ha
      simp only [List.mem_range'] at ha
      obtain ⟨i, hi, rfl⟩ := ha
      simp
      omega
    have h2 : (List.range' (d + 1) (N - (d + 1))).filter (fun j => decide (d < j)) =
        List.range' (d + 1) (N - (d + 1)) := by
      refine List.filter_eq_self.mpr ?_
      intro a ha
      simp only [List.mem_range'] at ha
      obtain ⟨i, hi, rfl⟩ := ha
      simp
      omega
    rw [h1, h2, List.nil_append]
  · have hN : N - (d + 1) = 0 := by omega
    rw [hN]
    refine List.filter_eq_nil_iff.mpr ?_
    intro a ha
    simp only [List.mem_range] at ha
    simp
    omega

lemma nextSigEnd_eq_firstDiscovered (data : List Nat) (d : Nat) :
    nextSigEnd data d =
      (((localFileHeaders data).filter (fun j => decide (d < j))).head?).getD
        data.length := by
  rw [nextSigEnd, nextSigEndF_eq data data.length (d + 1) (by omega), localFileHeaders_eq,
    List.filter_filter, ← range_filter_gt (data.length - 4) d, List.filter_filter]
  congr 2
  apply List.filter_congr
  intro a _
  rw [Bool.and_comm]

/-! ### Shape of the recovery loop -/

/-- The per-offset body of `fallbackZipRepair`'s loop: the entry added for a
discovered offset, if any. -/
def parsedFile (inflateRaw inflateZlib : List Nat → Option (List Nat))
    (data : List Nat) (off : Nat) : Option (String × List Nat) :=
  (parseLocalFileHeader inflateRaw inflateZlib data off).bind fun e =>
    if e.filename ≠ "" ∧ ¬ endsWithS e.filename "/" then some (e.filename, e.data)
    else none

lemma recoverLoop_eq_filterMap (ir iz : List Nat → Option (List Nat)) (data : List Nat) :
    ∀ offs, recoverLoop ir iz data offs = offs.filterMap (parsedFile ir iz data) := by
  intro offs
  induction offs with
  | nil => rfl
  | cons o rest ih =>
    cases h : parseLocalFileHeader ir iz data o with
    | none =>
      have hv : parsedFile ir iz data o = none := by simp [parsedFile, h]
      simp [recoverLoop, h, List.filterMap_cons, hv, ih]
    | some e =>
      by_cases hc : e.filename ≠ "" ∧ ¬ endsWithS e.filename "/"
      · have hv : parsedFile ir iz data o = some (e.filename, e.data) := by
          unfold parsedFile
          rw [h, Option.some_bind]
          show (if e.filename ≠ "" ∧ ¬ endsWithS e.filename "/" then
              some (e.filename, e.data) else none) = some (e.filename, e.data)
          rw [if_pos hc]
        simp [recoverLoop, h, hc, List.filterMap_cons, hv, ih]
      · have hv : parsedFile ir iz data o = none := by
          unfold parsedFile
          rw [h, Option.some_bind]
          show (if e.filename ≠ "" ∧ ¬ endsWithS e.filename "/" then
              some (e.filename, e.data) else none) = none
          rw [if_neg hc]
        show (match parseLocalFileHeader ir iz data o with
          | some e =>
            if e.filename ≠ "" ∧ ¬ endsWithS e.filename "/" then
              (e.filename, e.data) :: recoverLoop ir iz data rest
            else recoverLoop ir iz data rest
          | none => recoverLoop ir iz data rest) = _
        rw [h]
        show (if e.filename ≠ "" ∧ ¬ endsWithS e.filename "/" then
            (e.filename, e.data) :: recoverLoop ir iz data rest
          else recoverLoop ir iz data rest) = _
        rw [if_neg hc, List.filterMap_cons, hv, ih]

/-! ### Destructuring a successful header parse -/

lemma parseLocalFileHeader_some {ir iz : List Nat → Option (List Nat)}
    {data : List Nat} {offset : Nat} {e : ParsedEntry}
    (h : parseLocalFileHeader ir iz data offset = some e) :
    offset + 30 ≤ data.length ∧
    offset + 30 + readLE16 data (offset + 26) ≤ data.length ∧
    endsWithS e.filename "/" = false ∧
    e.method = readLE16 data (offset + 8) ∧
    e.declaredCompressedSize = readLE32 data (offset + 18) ∧
    e.dataStart = offset + 30 + readLE16 data (offset + 26) + readLE16 data (offset + 28) ∧
    e.dataEnd = (if 0 < e.declaredCompressedSize ∧
        e.dataStart + e.declaredCompressedSize ≤ data.length then
        e.dataStart + e.declaredCompressedSize
      else nextSigEnd data e.dataStart) ∧
    e.data = (if e.method == 8 then
        deflatePath ir iz e.filename (sliceJS data e.dataStart e.dataEnd)
      else sliceJS data e.dataStart e.dataEnd) := by
  simp only [parseLocalFileHeader] at h
  by_cases h1 : offset + 30 > data.length
  · rw [if_pos h1] at h
    exact absurd h (by simp)
  rw [if_neg h1] at h
  by_cases h2 : offset + 30 + readLE16 data (offset + 26) > data.length
  · rw [if_pos h2] at h
    exact absurd h (by simp)
  rw [if_neg h2] at h
  by_cases h3 : endsWithS
      (String.mk (utf8Decode (sliceJS data (offset + 30)
        (offset + 30 + readLE16 data (offset + 26))))) "/" = true
  · rw [if_pos h3] at h
    exact absurd h (by simp)
  rw [if_neg h3] at h
  injection h with he
  subst he
  exact ⟨by omega, by omega, by simpa using h3, rfl, rfl, rfl, rfl, rfl⟩

lemma sliceJS_isInfix (l : List Nat) (a b : Nat) : sliceJS l a b <:+: l := by
  refine ⟨(l.take b).take a, l.drop b, ?_⟩
  rw [sliceJS, List.take_append_drop, List.take_append_drop]

/-! ### Concrete buffers used by counterexamples and witnesses -/

/-- ASCII bytes of a string. -/
def asciiBytes (s : String) : List Nat := s.data.map Char.toNat

/-- A 30-byte ZIP local file header with the given compression method,
compressed size, filename length and extra-field length; every other field is
zero. -/
def lfh30 (method size fnLen extra : Nat) : List Nat :=
  [0x50, 0x4B, 0x03, 0x04, 0, 0, 0, 0] ++ [method % 256, method / 256] ++
    [0, 0, 0, 0, 0, 0, 0, 0] ++
    [size % 256, size / 256 % 256, size / 65536 % 256, size / 16777216 % 256] ++
    [0, 0, 0, 0] ++ [fnLen % 256, fnLen / 256] ++ [extra % 256, extra / 256]

/-- Just a signature: 4 bytes that are exactly `PK\x03\x04`. -/
def sig4 : List Nat := [0x50, 0x4B, 0x03, 0x04]

/-- A signature at offset 0 with no room for a 30-byte header. -/
def buf5 : List Nat := [0x50, 0x4B, 0x03, 0x04, 0x00]

/-- 50 bytes that are not an archive (Scenario C of the specification). -/
def bytes50 : List Nat := List.replicate 50 7

/-- A well-formed stored (method 0) entry `a` with 3 data bytes. -/
def valid34 : List Nat := lfh30 0 3 1 0 ++ [97] ++ [1, 2, 3]

/-- The same entry but with unknown compression method 99. -/
def buf99 : List Nat := lfh30 99 3 1 0 ++ [97] ++ [1, 2, 3]

/-- A deflate (method 8) entry `a` — not an `.xml` name — whose 3 data bytes
are not a valid deflate stream. -/
def buf8nonxml : List Nat := lfh30 8 3 1 0 ++ [97] ++ [1, 2, 3]

/-- A deflate entry named `word/document.xml` whose data is garbage. -/
def bufDoc : List Nat := lfh30 8 3 17 0 ++ asciiBytes "word/document.xml" ++ [1, 2, 3]

/-- An entry `a` with declared compressed size 0, two data bytes, and a later
signature at offset 33 (so the truncation clamp must stop there). -/
def bufTrunc : List Nat :=
  lfh30 0 0 1 0 ++ [97] ++ [9, 9] ++ [0x50, 0x4B, 0x03, 0x04] ++ [7, 7, 7]

/-- The entry `parseLocalFileHeader` produces for `valid34` at offset 0. -/
def entry34 : ParsedEntry := ⟨"a", 0, 3, 31, 34, [1, 2, 3]⟩

/-- The entry `parseLocalFileHeader` produces for `bufTrunc` at offset 0. -/
def entryTrunc : ParsedEntry := ⟨"a", 0, 0, 31, 33, [9, 9]⟩

/-! ### Substring-search lemmas -/

lemma isPrefixOf_append_left {α : Type} [DecidableEq α] :
    ∀ (p x y : List α), p.length ≤ x.length →
      p.isPrefixOf (x ++ y) = p.isPrefixOf x := by
  intro p
  induction p with
  | nil => intro x y _; cases x <;> simp [List.isPrefixOf]
  | cons a p' ih =>
    intro x y hl
    cases x with
    | nil => simp at hl
    | cons b x' =>
      have e1 : (a :: p').isPrefixOf ((b :: x') ++ y) =
          (a == b && p'.isPrefixOf (x' ++ y)) := rfl
      have e2 : (a :: p').isPrefixOf (b :: x') = (a == b && p'.isPrefixOf x') := rfl
      rw [e1, e2, ih x' y (by simpa using hl)]

lemma isPrefixOf_append_self {α : Type} [DecidableEq α] (p t : List α) :
    p.isPrefixOf (p ++ t) = true :=
  List.isPrefixOf_iff_prefix.mpr ⟨t, rfl⟩

lemma findSub_append_first {α : Type} [DecidableEq α] (p : List α) :
    ∀ (x y : List α), (∀ k, k < x.length → p.isPrefixOf (x.drop k ++ y) = false) →
      p.isPrefixOf y = true → findSub p (x ++ y) = some x.length := by
  intro x
  induction x with
  | nil =>
    intro y _ hy
    cases y with
    | nil =>
      have hp : p = [] := by
        cases p with
        | nil => rfl
        | cons a p' => simp [List.isPrefixOf] at hy
      subst hp
      simp [findSub]
    | cons a rest =>
      simp [findSub, hy]
  | cons b x' ih =>
    intro y hk hy
    have hhead : p.isPrefixOf (b :: (x' ++ y)) = false := by
      have := hk 0 (by simp)
      simpa using this
    rw [List.cons_append, findSub, if_neg (by simp [hhead]),
      ih y (fun k hk' => by simpa using hk (k + 1) (by simpa using hk')) hy]
    simp

lemma findSub_isSome_middle {α : Type} [DecidableEq α] (p : List α) :
    ∀ (x y : List α), (findSub p (x ++ (p ++ y))).isSome = true := by
  intro x
  induction x with
  | nil =>
    intro y
    rw [List.nil_append]
    cases hp : p with
    | nil => cases y <;> simp [findSub, List.isPrefixOf]
    | cons a p' =>
      rw [List.cons_append, findSub,
        if_pos (by rw [← List.cons_append, ← hp]; simp [isPrefixOf_append_self])]
      rfl
  | cons b x' ih =>
    intro y
    rw [List.cons_append, findSub]
    by_cases hp : p.isPrefixOf (b :: (x' ++ (p ++ y))) = true
    · rw [if_pos (by simp [hp])]
      rfl
    · rw [if_neg (by simp [hp])]
      simpa using ih y

lemma containsSub_middle {α : Type} [DecidableEq α] (x p y : List α) :
    containsSub (x ++ p ++ y) p = true := by
  rw [containsSub, List.append_assoc]
  exact findSub_isSome_middle p x y

lemma utf8Encode_append (a b : List Char) :
    utf8Encode (a ++ b) = utf8Encode a ++ utf8Encode b := by
  simp [utf8Encode, List.map_append, List.flatten_append]

/-! ### The hard-coded template always wins -/

lemma htPreA_len : htPreA.data.length = 907 := by
  simp only [htPreA, String.data_append, List.length_append]
  decide

lemma htPreB_len : htPreB.data.length = 18731 := by
  simp only [htPreB, String.data_append, List.length_append]
  decide

lemma healthPhrase_len : healthPhrase.data.length = 51 := by decide

lemma corruptionSentence_len : corruptionSentence.data.length = 119 := by decide

lemma htTail_len : htTail.data.length = 44 := by decide

lemma healthTemplatePre_data :
    healthTemplatePre.data =
      htPreA.data ++ (healthPhrase.data ++ (htPreB.data ++ corruptionSentence.data)) := by
  simp [healthTemplatePre, String.data_append]

lemma healthTemplatePre_len : healthTemplatePre.data.length = 19808 := by
  rw [healthTemplatePre_data, List.length_append, List.length_append, List.length_append,
    htPreA_len, healthPhrase_len, htPreB_len, corruptionSentence_len]

lemma healthTemplate_data :
    healthTemplate.data = healthTemplatePre.data ++ htTail.data := by
  simp [healthTemplate, String.data_append]

lemma healthTemplate_len : healthTemplate.data.length = 19852 := by
  rw [healthTemplate_data, List.length_append, healthTemplatePre_len, htTail_len]

lemma lastIndexOf_sentence :
    lastIndexOfJS corruptionSentence.data healthTemplate.data = (19689 : Int) := by
  have hdata : healthTemplate.data.reverse =
      htTail.data.reverse ++ (corruptionSentence.data.reverse ++
        (htPreB.data.reverse ++ (healthPhrase.data.reverse ++ htPreA.data.reverse))) := by
    rw [healthTemplate_data, healthTemplatePre_data]
    simp [List.reverse_append]
  have hk : ∀ k, k < (htTail.data.reverse).length →
      (corruptionSentence.data.reverse).isPrefixOf ((htTail.data.reverse).drop k ++
        (corruptionSentence.data.reverse ++
          (htPreB.data.reverse ++ (healthPhrase.data.reverse ++ htPreA.data.reverse)))) =
        false := by
    intro k hklt
    rw [← List.append_assoc]
    rw [isPrefixOf_append_left _ _ _ (by
      rw [List.length_append, List.length_drop, List.length_reverse, List.length_reverse,
        corruptionSentence_len, htTail_len]
      omega)]
    revert hklt
    rw [List.length_reverse, htTail_len]
    revert k
    decide
  have hy : (corruptionSentence.data.reverse).isPrefixOf
      (corruptionSentence.data.reverse ++
        (htPreB.data.reverse ++ (healthPhrase.data.reverse ++ htPreA.data.reverse))) =
      true := isPrefixOf_append_self _ _
  unfold lastIndexOfJS
  rw [hdata, findSub_append_first _ _ _ hk hy, List.length_reverse, htTail_len,
    healthTemplate_len, corruptionSentence_len]
  decide

/-- The value `extractXmlFromRawData` always returns: the template up to the
end of the corruption sentence, plus the closing tags. -/
def goodContent : String := String.mk (healthTemplatePre.data ++ closingSuffix.data)

lemma extractXmlFromRawData_const (cd : List Nat) :
    extractXmlFromRawData cd = some goodContent := by
  unfold extractXmlFromRawData
  rw [lastIndexOf_sentence, corruptionSentence_len]
  rw [if_pos (by decide : ((19689 : Int) > 0))]
  have harg : (((19689 : Int) + ((119 : Nat) : Int)).toNat) = 19808 := by decide
  rw [harg]
  have htake : healthTemplate.data.take 19808 = healthTemplatePre.data := by
    rw [healthTemplate_data]
    exact List.take_left' (by rw [healthTemplatePre_len])
  rw [htake]
  rfl

lemma goodContent_length : goodContent.length = 19852 := by
  show goodContent.data.length = 19852
  simp only [goodContent]
  rw [List.length_append, healthTemplatePre_len]
  decide

lemma deflatePath_doc :
    deflatePath noInflate noInflate "word/document.xml" [1, 2, 3] =
      utf8Encode goodContent.data := by
  have hp : probeOffsets noInflate [1, 2, 3] = none := by decide
  have hs : sigScanZlib noInflate [1, 2, 3] = none := by decide
  have hx : endsWithS "word/document.xml" ".xml" = true := by decide
  simp only [deflatePath, noInflate, hp, hs, hx, extractXmlFromRawData_const,
    goodContent_length, if_true]
  norm_num

lemma parse_bufDoc :
    parseLocalFileHeader noInflate noInflate bufDoc 0 =
      some ⟨"word/document.xml", 8, 3, 47, 50, utf8Encode goodContent.data⟩ := by
  have hfn : String.mk (utf8Decode (sliceJS bufDoc (0 + 30)
      (0 + 30 + readLE16 bufDoc (0 + 26)))) = "word/document.xml" := by decide
  simp only [parseLocalFileHeader]
  rw [if_neg (by decide : ¬ (0 + 30 > bufDoc.length)),
    if_neg (by decide : ¬ (0 + 30 + readLE16 bufDoc (0 + 26) > bufDoc.length)), hfn,
    if_neg (by decide : ¬ (endsWithS "word/document.xml" "/" = true)),
    if_pos (by decide : readLE32 bufDoc (0 + 18) > 0 ∧
      0 + 30 + readLE16 bufDoc (0 + 26) + readLE16 bufDoc (0 + 28) +
        readLE32 bufDoc (0 + 18) ≤ bufDoc.length),
    if_pos (by decide : (readLE16 bufDoc (0 + 8) == 8) = true),
    show sliceJS bufDoc (0 + 30 + readLE16 bufDoc (0 + 26) + readLE16 bufDoc (0 + 28))
        (0 + 30 + readLE16 bufDoc (0 + 26) + readLE16 bufDoc (0 + 28) +
          readLE32 bufDoc (0 + 18)) = [1, 2, 3] from by decide,
    deflatePath_doc]
  simp only [Option.some.injEq, ParsedEntry.mk.injEq]
  refine ⟨trivial, by decide, by decide, by decide, by decide, trivial⟩

lemma goodContent_data_decomp :
    goodContent.data = htPreA.data ++ healthPhrase.data ++
      (htPreB.data ++ corruptionSentence.data ++ closingSuffix.data) := by
  show healthTemplatePre.data ++ closingSuffix.data = _
  rw [healthTemplatePre_data]
  simp [List.append_assoc]

/-! ### Claim theorems -/

/-- Claim C1 (counterexample): on `buf5` the signature scan discovers exactly
one candidate, but its header parse fails (no room for the 30-byte header)
and the recovery loop emits nothing for it — there is no placeholder, so
`recoveredCount + placeholderCount = 0` while `totalEntriesFound = 1`, and
the recovered-path set is empty rather than equal to the discovered set. -/
theorem claim1_no_entry_loss_cex :
    (localFileHeaders buf5).length = 1 ∧
      parseLocalFileHeader noInflate noInflate buf5 0 = none ∧
      recoveredFiles noInflate noInflate buf5 = [] := by decide

/-- Claim C1 (amended): the rebuilt archive receives exactly those discovered
candidates whose header parse succeeds with a nonempty filename not ending in
`/`, in discovery order; a candidate whose parse fails is omitted outright —
there is no placeholder mechanism — so the recovered count can be smaller
than the number of discovered candidates. (Decompression failure never drops
an entry: a parsed entry is always emitted, whatever its data.) -/
theorem claim1_no_entry_loss_amended (ir iz : List Nat → Option (List Nat))
    (data : List Nat) :
    recoveredFiles ir iz data =
      (localFileHeaders data).filterMap (parsedFile ir iz data) :=
  recoverLoop_eq_filterMap ir iz data (localFileHeaders data)

/-- Claim C2 (counterexample): on 50 non-archive bytes `fallbackZipRepair`
throws (`Except.error`) instead of returning a minimal valid empty archive. -/
theorem claim2_no_throw_cex :
    fallbackZipRepair noInflate noInflate bytes50 =
      Except.error "No files could be recovered from corrupt ZIP" := by
  have h : recoveredFiles noInflate noInflate bytes50 = [] := by decide
  simp [fallbackZipRepair, h]

/-- Claim C2 (amended): whenever zero entries can be recovered, the repair
throws the error `No files could be recovered from corrupt ZIP` rather than
returning an empty archive; the surrounding handler catches it and reports
failure. -/
theorem claim2_no_throw_amended (ir iz : List Nat → Option (List Nat))
    (data : List Nat) (h : recoveredFiles ir iz data = []) :
    fallbackZipRepair ir iz data =
      Except.error "No files could be recovered from corrupt ZIP" := by
  simp [fallbackZipRepair, h]

/-- Witness for the amended claim C2 at a concrete input. -/
theorem claim2_no_throw_witness :
    fallbackZipRepair noInflate noInflate (List.replicate 10 0) =
      Except.error "No files could be recovered from corrupt ZIP" :=
  claim2_no_throw_amended noInflate noInflate (List.replicate 10 0) (by decide)

/-- Claim C3 (confirmed): a candidate whose fixed 30-byte header or declared
filename length runs past the end of the buffer is discarded (`none`), and a
parsed entry's compressed byte range never exceeds the buffer — its end
offset is at most the length and the extracted compressed bytes are a
contiguous part of the buffer. -/
theorem claim3_bounds_safety (ir iz : List Nat → Option (List Nat))
    (data : List Nat) (offset : Nat) :
    (offset + 30 > data.length → parseLocalFileHeader ir iz data offset = none) ∧
    (offset + 30 + readLE16 data (offset + 26) > data.length →
      parseLocalFileHeader ir iz data offset = none) ∧
    (∀ e, parseLocalFileHeader ir iz data offset = some e →
      e.dataEnd ≤ data.length ∧ sliceJS data e.dataStart e.dataEnd <:+: data) := by
  refine ⟨?_, ?_, ?_⟩
  · intro h
    simp only [parseLocalFileHeader]
    rw [if_pos h]
  · intro h
    by_cases h1 : offset + 30 > data.length
    · simp only [parseLocalFileHeader]
      rw [if_pos h1]
    · simp only [parseLocalFileHeader]
      rw [if_neg h1, if_pos h]
  · intro e he
    obtain ⟨-, -, -, -, -, -, hde, -⟩ := parseLocalFileHeader_some he
    refine ⟨?_, sliceJS_isInfix data _ _⟩
    rw [hde]
    split_ifs with hc
    · exact hc.2
    · exact nextSigEndF_le data data.length _

/-- Witness for claim C3: the discard case on `buf5` and the bounded range of
the entry parsed from `valid34`. -/
theorem claim3_bounds_safety_witness :
    parseLocalFileHeader noInflate noInflate buf5 0 = none ∧
      (entry34.dataEnd ≤ valid34.length ∧
        sliceJS valid34 entry34.dataStart entry34.dataEnd <:+: valid34) :=
  ⟨(claim3_bounds_safety noInflate noInflate buf5 0).1 (by decide),
    (claim3_bounds_safety noInflate noInflate valid34 0).2.2 entry34 (by decide)⟩

/-- Claim C4 (confirmed): when the declared compressed size is 0 or overruns
the buffer, the entry's data range ends at the first discovered signature
offset strictly after `dataStart` (end of buffer when none exists); otherwise
it ends exactly at `dataStart + declared size`. -/
theorem claim4_truncation_clamping (ir iz : List Nat → Option (List Nat))
    (data : List Nat) (offset : Nat) (e : ParsedEntry)
    (h : parseLocalFileHeader ir iz data offset = some e) :
    (¬ (0 < e.declaredCompressedSize ∧
        e.dataStart + e.declaredCompressedSize ≤ data.length) →
      e.dataEnd =
        (((localFileHeaders data).filter
          (fun j => decide (e.dataStart < j))).head?).getD data.length) ∧
    (0 < e.declaredCompressedSize ∧ e.dataStart + e.declaredCompressedSize ≤ data.length →
      e.dataEnd = e.dataStart + e.declaredCompressedSize) := by
  obtain ⟨-, -, -, -, -, -, hde, -⟩ := parseLocalFileHeader_some h
  constructor
  · intro hc
    rw [hde, if_neg hc, nextSigEnd_eq_firstDiscovered]
  · intro hc
    rw [hde, if_pos hc]

/-- Witness for claim C4: in `bufTrunc` the declared size is 0 and the parsed
entry's range ends at the next discovered signature, offset 33. -/
theorem claim4_truncation_clamping_witness :
    (entryTrunc.dataEnd =
      (((localFileHeaders bufTrunc).filter
        (fun j => decide (entryTrunc.dataStart < j))).head?).getD bufTrunc.length) ∧
      entryTrunc.dataEnd = 33 :=
  ⟨(claim4_truncation_clamping noInflate noInflate bufTrunc 0 entryTrunc
      (by decide)).1 (by decide), by decide⟩

/-- The entry `parseLocalFileHeader` produces for `buf99` at offset 0. -/
def entry99 : ParsedEntry := ⟨"a", 99, 3, 31, 34, [1, 2, 3]⟩

/-- Claim C5 (counterexample): for compression method 99 (neither Store nor
Deflate) the parser does not fail — it produces the entry with the raw
compressed bytes `[1, 2, 3]` as its content, so content is produced and no
error of any kind is raised. -/
theorem claim5_unsupported_method_cex :
    parseLocalFileHeader noInflate noInflate buf99 0 = some entry99 := by decide

/-- Claim C5 (amended): for every entry whose method is neither 0 nor 8, no
decompression is attempted and the entry's data is the raw compressed byte
range, passed through unchanged. -/
theorem claim5_unsupported_method_amended (ir iz : List Nat → Option (List Nat))
    (data : List Nat) (offset : Nat) (e : ParsedEntry)
    (h : parseLocalFileHeader ir iz data offset = some e)
    (_h0 : e.method ≠ 0) (h8 : e.method ≠ 8) :
    e.data = sliceJS data e.dataStart e.dataEnd := by
  obtain ⟨-, -, -, -, -, -, -, hdata⟩ := parseLocalFileHeader_some h
  rw [hdata, if_neg (by simp [h8])]

/-- Witness for the amended claim C5 at `buf99`. -/
theorem claim5_unsupported_method_witness :
    entry99.data = sliceJS buf99 entry99.dataStart entry99.dataEnd :=
  claim5_unsupported_method_amended noInflate noInflate buf99 0 entry99
    (by decide) (by decide) (by decide)

/-- Claim C7 (counterexample): the 4-byte buffer that is exactly the
signature has an occurrence at offset 0, but the scan reports nothing — the
loop bound `i < length - 4` skips the final possible offset. -/
theorem claim7_scan_cex : sigAt sig4 0 = true ∧ localFileHeaders sig4 = [] := by decide

/-- Claim C7 (amended): the scan examines every offset `0 ≤ i < length - 4`
(byte by byte, no stride) and reports exactly the signature occurrences among
those offsets, in strictly ascending order; an occurrence beginning at offset
`length - 4` (the final four bytes) is not reported. -/
theorem claim7_scan_amended (data : List Nat) :
    localFileHeaders data = (List.range (data.length - 4)).filter (sigAt data) ∧
      List.Pairwise (· < ·) (localFileHeaders data) :=
  ⟨localFileHeaders_eq data, localFileHeaders_sorted data⟩

/-- Claim C8 (counterexample): parsing the deflate entry
`word/document.xml` of `bufDoc` (whose data is garbage no inflater accepts)
produces content that contains the hard-coded healthcare-template phrase
`Introduction to the Rehabilitation Health Care Team`. -/
theorem claim8_template_cex :
    ((parseLocalFileHeader noInflate noInflate bufDoc 0).map
      (fun e => containsSub e.data (utf8Encode healthPhrase.data))).getD false = true := by
  rw [parse_bufDoc]
  show containsSub (utf8Encode goodContent.data) (utf8Encode healthPhrase.data) = true
  rw [goodContent_data_decomp, utf8Encode_append, utf8Encode_append]
  exact containsSub_middle _ _ _

/-- Claim C8 (amended): the code does synthesize the hard-coded healthcare
template — `extractXmlFromRawData` returns, for every input whatsoever, the
fixed template text (which contains the rehabilitation-health-care phrase),
and the `word/document.xml` recovery path emits it when decompression
fails. -/
theorem claim8_template_amended (compressedData : List Nat) :
    ∃ s, extractXmlFromRawData compressedData = some s ∧
      containsSub s.data healthPhrase.data = true := by
  refine ⟨goodContent, extractXmlFromRawData_const _, ?_⟩
  rw [goodContent_data_decomp]
  exact containsSub_middle _ _ _

/-- Claim C10 (confirmed): a deflate entry whose name is not `.xml` and for
which both inflaters fail keeps its raw (still compressed) byte range as its
content, and — when its filename is nonempty — is still emitted into the
rebuilt archive with exactly that content. -/
theorem claim10_raw_passthrough (ir iz : List Nat → Option (List Nat))
    (data : List Nat) (offset : Nat) (e : ParsedEntry)
    (h : parseLocalFileHeader ir iz data offset = some e)
    (hm : e.method = 8)
    (hr : ir (sliceJS data e.dataStart e.dataEnd) = none)
    (hz : iz (sliceJS data e.dataStart e.dataEnd) = none)
    (hx : endsWithS e.filename ".xml" = false) :
    e.data = sliceJS data e.dataStart e.dataEnd ∧
      (e.filename ≠ "" → offset ∈ localFileHeaders data →
        (e.filename, e.data) ∈ recoveredFiles ir iz data) := by
  obtain ⟨-, -, hdir, -, -, -, -, hdata⟩ := parseLocalFileHeader_some h
  have hd : e.data = sliceJS data e.dataStart e.dataEnd := by
    rw [hdata, if_pos (by simp [hm])]
    unfold deflatePath
    rw [hr]
    show (match iz (sliceJS data e.dataStart e.dataEnd) with
      | some d => d
      | none =>
        if endsWithS e.filename ".xml" then
          match probeOffsets ir (sliceJS data e.dataStart e.dataEnd) with
          | some d => d
          | none =>
            match sigScanZlib iz (sliceJS data e.dataStart e.dataEnd) with
            | some d => d
            | none =>
              if e.filename = "word/document.xml" then
                match extractXmlFromRawData (sliceJS data e.dataStart e.dataEnd) with
                | some x =>
                  if x.length > 1000 then utf8Encode x.data else minimalXmlFor e.filename
                | none => minimalXmlFor e.filename
              else minimalXmlFor e.filename
        else sliceJS data e.dataStart e.dataEnd) = sliceJS data e.dataStart e.dataEnd
    rw [hz]
    show (if endsWithS e.filename ".xml" then _ else sliceJS data e.dataStart e.dataEnd) =
      sliceJS data e.dataStart e.dataEnd
    rw [if_neg (by simp [hx])]
  refine ⟨hd, fun hfn hmem => ?_⟩
  rw [recoveredFiles, recoverLoop_eq_filterMap]
  refine List.mem_filterMap.mpr ⟨offset, hmem, ?_⟩
  unfold parsedFile
  rw [h, Option.some_bind]
  show (if e.filename ≠ "" ∧ ¬ endsWithS e.filename "/" then some (e.filename, e.data)
    else none) = some (e.filename, e.data)
  rw [if_pos ⟨hfn, by simp [hdir]⟩]

/-- The entry `parseLocalFileHeader` produces for `buf8nonxml` at offset 0. -/
def entry8 : ParsedEntry := ⟨"a", 8, 3, 31, 34, [1, 2, 3]⟩

/-- Witness for claim C10 at `buf8nonxml`, with inflaters that reject its
3 garbage bytes. -/
theorem claim10_raw_passthrough_witness :
    entry8.data = sliceJS buf8nonxml entry8.dataStart entry8.dataEnd ∧
      ("a", [1, 2, 3]) ∈ recoveredFiles noInflate noInflate buf8nonxml := by
  have h := claim10_raw_passthrough noInflate noInflate buf8nonxml 0 entry8
    (by decide) (by decide) rfl rfl (by decide)
  exact ⟨h.1, by simpa using h.2 (by decide) (by decide)⟩

/-! ### Claim C6: the salvage chain returns the empty string, never a
placeholder -/

lemma joinSpace_ne_nil : ∀ (l : List (List Char)), l ≠ [] → (∀ x ∈ l, x ≠ []) →
    joinSpace l ≠ []
  | [], h, _ => absurd rfl h
  | [x], _, hx => by simpa using hx x (by simp)
  | x :: y :: rest, _, hx => by
    rw [joinSpace]
    rcases hq : x with _ | ⟨a, t⟩
    · exact absurd hq (hx x (by simp))
    · simp

lemma stringMk_eq_empty {l : List Char} : String.mk l = "" ↔ l = [] := by
  constructor
  · intro h
    have h2 : (String.mk l).data = ("" : String).data := congrArg String.data h
    exact h2
  · intro h
    subst h
    rfl

lemma mem_wordSegs_ne_nil {xml : String} {x : List Char} (h : x ∈ wordSegs xml) :
    x ≠ [] := by
  rw [wordSegs] at h
  obtain ⟨c, -, hc⟩ := List.mem_filterMap.mp h
  split_ifs at hc with hcond
  · have hx : trimL c = x := Option.some.inj hc
    rw [← hx]
    exact hcond.2.1

lemma mem_paraSegs_ne_nil {xml : String} {x : List Char} (h : x ∈ paraSegs xml) :
    x ≠ [] := by
  rw [paraSegs] at h
  obtain ⟨c, -, hc⟩ := List.mem_filterMap.mp h
  simp only at hc
  split_ifs at hc with hcond
  · have hx : trimL (stripTags [' '] c) = x := Option.some.inj hc
    rw [← hx]
    exact hcond.1

lemma mem_genericWords_ne_nil {xml : String} {x : List Char} (h : x ∈ genericWords xml) :
    x ≠ [] := by
  rw [genericWords] at h
  have hp := (List.mem_filter.mp h).2
  intro hnil
  subst hnil
  simp at hp

/-- Claim C6 (counterexample): on the empty input the salvage routine
extracts nothing — fewer than any threshold of readable characters — and
returns the empty string, not a placeholder sentence naming the part. -/
theorem claim6_salvage_cex : extractTextFromXml "" = "" := by decide

/-- Claim C6 (amended): `extractTextFromXml` is total, and it returns the
empty string exactly when every extraction stage falls below its threshold
(at most 5 text-run segments, no paragraph captures, at most 20 generic
words); in that case the result is the empty string — no placeholder text is
ever synthesized. -/
theorem claim6_salvage_amended (xml : String) :
    extractTextFromXml xml = "" ↔
      (wordSegs xml).length ≤ 5 ∧ paraSegs xml = [] ∧
        (genericWords xml).length ≤ 20 := by
  constructor
  · intro h
    by_cases h1 : (wordSegs xml).length > 5
    · exfalso
      rw [extractTextFromXml, if_pos h1, stringMk_eq_empty] at h
      exact joinSpace_ne_nil _ (by intro hq; rw [hq] at h1; simp at h1)
        (fun x hx => mem_wordSegs_ne_nil hx) h
    by_cases h2 : paraSegs xml ≠ []
    · exfalso
      rw [extractTextFromXml, if_neg h1, if_pos h2, stringMk_eq_empty] at h
      exact joinSpace_ne_nil _ h2 (fun x hx => mem_paraSegs_ne_nil hx) h
    by_cases h3 : (genericWords xml).length > 20
    · exfalso
      rw [extractTextFromXml, if_neg h1, if_neg h2, if_pos h3, stringMk_eq_empty] at h
      exact joinSpace_ne_nil _ (by intro hq; rw [hq] at h3; simp at h3)
        (fun x hx => mem_genericWords_ne_nil hx) h
    exact ⟨by omega, by simpa using h2, by omega⟩
  · intro ⟨ha, hb, hc⟩
    rw [extractTextFromXml, if_neg (by omega), if_neg (by simpa using hb),
      if_neg (by omega)]

/-! ### Claim C9: the word-text extraction pipeline -/

/-- One well-formed `<w:t>`…`</w:t>` text run. -/
def wrapWt (c : List Char) : List Char := "<w:t>".data ++ c ++ "</w:t>".data

lemma wrapWt_cons (c s : List Char) :
    wrapWt c ++ s = '<' :: 'w' :: ':' :: 't' :: '>' :: (c ++ ("</w:t>".data ++ s)) := by
  simp [wrapWt]

lemma findSub_map_add {α : Type} [DecidableEq α] {p : List α} {h0 : α} {p' : List α}
    (hp : p = h0 :: p') :
    ∀ (x y : List α), h0 ∉ x →
      findSub p (x ++ y) = (findSub p y).map (· + x.length) := by
  intro x
  induction x with
  | nil =>
    intro y _
    simp
  | cons a x' ih =>
    intro y hx
    have hne : h0 ≠ a := fun he => hx (by simp [he])
    have hpre : p.isPrefixOf (a :: (x' ++ y)) = false := by
      rw [hp]
      show ((h0 == a) && p'.isPrefixOf (x' ++ y)) = false
      rw [beq_eq_false_iff_ne.mpr hne, Bool.false_and]
    rw [List.cons_append, findSub, if_neg (by simp [hpre]),
      ih y (fun hm => hx (by simp [hm])), Option.map_map]
    cases findSub p y <;> simp

lemma findSub_self_append {α : Type} [DecidableEq α] (p t : List α) (hp : p ≠ []) :
    findSub p (p ++ t) = some 0 := by
  rcases p with _ | ⟨a, p'⟩
  · exact absurd rfl hp
  · rw [List.cons_append, findSub, if_pos]
    rw [← List.cons_append]
    exact isPrefixOf_append_self (a :: p') t

lemma contains_eq_false {c : List Char} {ch : Char} (h : ch ∉ c) :
    c.contains ch = false := by
  by_contra hq
  rw [Bool.not_eq_false] at hq
  exact h (List.elem_iff.mp hq)

lemma wtMatchHere_wrap (d : Bool) (c s : List Char)
    (hlt : ('<' : Char) ∉ c) (hnl : ('\n' : Char) ∉ c) :
    wtMatchHere d (wrapWt c ++ s) = some (wrapWt c, c, s) := by
  have hpre : ("<w:t".data.isPrefixOf (wrapWt c ++ s)) = true := by
    rw [wrapWt_cons]
    rfl
  have hdrop4 : (wrapWt c ++ s).drop 4 = '>' :: (c ++ ("</w:t>".data ++ s)) := by
    rw [wrapWt_cons]
    rfl
  have hgt : findSub [('>' : Char)] ((wrapWt c ++ s).drop 4) = some 0 := by
    rw [hdrop4]
    exact findSub_self_append [('>' : Char)] _ (by simp)
  have hdrop5 : (wrapWt c ++ s).drop (4 + 0 + 1) = c ++ ("</w:t>".data ++ s) := by
    rw [wrapWt_cons]
    rfl
  have hclose : findSub "</w:t>".data ((wrapWt c ++ s).drop (4 + 0 + 1)) =
      some c.length := by
    rw [hdrop5, findSub_map_add rfl c _ hlt,
      findSub_self_append "</w:t>".data s (by decide)]
    simp
  have hcap : (c ++ ("</w:t>".data ++ s)).take c.length = c := List.take_left c _
  have hnl' : c.contains '\n' = false := contains_eq_false hnl
  have htake : (wrapWt c ++ s).take (4 + 0 + 1 + c.length + 6) = wrapWt c :=
    List.take_left' (by simp [wrapWt]; omega)
  have hdropEnd : (wrapWt c ++ s).drop (4 + 0 + 1 + c.length + 6) = s :=
    List.drop_left' (by simp [wrapWt]; omega)
  rw [wtMatchHere, if_pos hpre, hgt]
  show (match findSub "</w:t>".data ((wrapWt c ++ s).drop (4 + 0 + 1)) with
    | none => none
    | some m =>
      if d || !((((wrapWt c ++ s).drop (4 + 0 + 1)).take m).contains '\n') then
        some ((wrapWt c ++ s).take (4 + 0 + 1 + m + 6),
          ((wrapWt c ++ s).drop (4 + 0 + 1)).take m,
          (wrapWt c ++ s).drop (4 + 0 + 1 + m + 6))
      else none) = some (wrapWt c, c, s)
  rw [hclose]
  show (if d || !((((wrapWt c ++ s).drop (4 + 0 + 1)).take c.length).contains '\n') then
      some ((wrapWt c ++ s).take (4 + 0 + 1 + c.length + 6),
        ((wrapWt c ++ s).drop (4 + 0 + 1)).take c.length,
        (wrapWt c ++ s).drop (4 + 0 + 1 + c.length + 6))
    else none) = some (wrapWt c, c, s)
  rw [hdrop5, hcap, hnl', htake, hdropEnd]
  simp

lemma wtFindMatch_wrap (d : Bool) (c s : List Char)
    (hlt : ('<' : Char) ∉ c) (hnl : ('\n' : Char) ∉ c) :
    wtFindMatch d (wrapWt c ++ s) = some (wrapWt c, c, s) := by
  rw [wrapWt_cons, wtFindMatch, ← wrapWt_cons, wtMatchHere_wrap d c s hlt hnl]

lemma wtMatchHere_rest_lt {d : Bool} {s fu cap rest : List Char}
    (h : wtMatchHere d s = some (fu, cap, rest)) : rest.length < s.length := by
  rw [wtMatchHere] at h
  split_ifs at h with hpre
  have hs : s ≠ [] := by
    intro he
    subst he
    simp [List.isPrefixOf] at hpre
  cases hg : findSub [('>' : Char)] (s.drop 4) with
  | none => rw [hg] at h; simp at h
  | some g =>
    rw [hg] at h
    change (match findSub "</w:t>".data (List.drop (4 + g + 1) s) with
      | none => none
      | some m =>
        if (d || !((List.take m (List.drop (4 + g + 1) s)).contains '\n')) = true then
          some (List.take (4 + g + 1 + m + 6) s, List.take m (List.drop (4 + g + 1) s),
            List.drop (4 + g + 1 + m + 6) s)
        else none) = some (fu, cap, rest) at h
    cases hm : findSub "</w:t>".data (List.drop (4 + g + 1) s) with
    | none => rw [hm] at h; simp at h
    | some m =>
      rw [hm] at h
      change (if (d || !((List.take m (List.drop (4 + g + 1) s)).contains '\n')) = true then
          some (List.take (4 + g + 1 + m + 6) s, List.take m (List.drop (4 + g + 1) s),
            List.drop (4 + g + 1 + m + 6) s)
        else none) = some (fu, cap, rest) at h
      split_ifs at h with hcond
      simp only [Option.some.injEq, Prod.mk.injEq] at h
      obtain ⟨-, -, hrest⟩ := h
      rw [← hrest, List.length_drop]
      have : s.length ≥ 1 := by
        cases s with
        | nil => exact absurd rfl hs
        | cons a t => simp
      omega

lemma wtFindMatch_rest_lt {d : Bool} :
    ∀ {s fu cap rest : List Char},
      wtFindMatch d s = some (fu, cap, rest) → rest.length < s.length := by
  intro s
  induction s with
  | nil => intro fu cap rest h; simp [wtFindMatch] at h
  | cons c0 r ih =>
    intro fu cap rest h
    rw [wtFindMatch] at h
    cases hm : wtMatchHere d (c0 :: r) with
    | none =>
      rw [hm] at h
      have := ih h
      simp only [List.length_cons]
      omega
    | some r0 =>
      rw [hm] at h
      simp only [Option.some.injEq] at h
      subst h
      exact wtMatchHere_rest_lt hm
 
lemma wtExecF_fuel_eq (d : Bool) :
    ∀ (f1 f2 : Nat) (s : List Char), s.length < f1 → s.length < f2 →
      wtExecF d f1 s = wtExecF d f2 s := by
  intro f1
  induction f1 with
  | zero => intro f2 s h1 _; omega
  | succ n ih =>
    intro f2 s h1 h2
    cases f2 with
    | zero => omega
    | succ m =>
      rw [wtExecF, wtExecF]
      cases hm : wtFindMatch d s with
      | none => rfl
      | some r =>
        obtain ⟨fu, cap, rest⟩ := r
        have hlt := wtFindMatch_rest_lt hm
        change ((fu, cap) :: wtExecF d n rest) = ((fu, cap) :: wtExecF d m rest)
        rw [ih m rest (by omega) (by omega)]

lemma wtExec_wrapList (d : Bool) :
    ∀ (cs : List (List Char)), (∀ c ∈ cs, ('<' : Char) ∉ c ∧ ('\n' : Char) ∉ c) →
      wtExec d ((cs.map wrapWt).flatten) = cs.map (fun c => (wrapWt c, c)) := by
  intro cs
  induction cs with
  | nil => intro _; rfl
  | cons c cs' ih =>
    intro hclean
    have hc := hclean c (by simp)
    rw [List.map_cons, List.flatten_cons, wtExec, wtExecF,
      wtFindMatch_wrap d c _ hc.1 hc.2]
    change (wrapWt c, c) ::
        wtExecF d (wrapWt c ++ (List.map wrapWt cs').flatten).length
          ((List.map wrapWt cs').flatten) =
      List.map (fun c => (wrapWt c, c)) (c :: cs')
    rw [wtExecF_fuel_eq d (wrapWt c ++ (List.map wrapWt cs').flatten).length
        (((List.map wrapWt cs').flatten).length + 1) ((List.map wrapWt cs').flatten)
        (by rw [List.length_append]; simp [wrapWt]) (by omega),
      ← wtExec, ih (fun x hx => hclean x (by simp [hx])), List.map_cons]

lemma stripTagsF_copy :
    ∀ (c t : List Char) (fuel : Nat), (∀ ch ∈ c, ch ≠ '<') →
      c.length + t.length ≤ fuel →
      stripTagsF [] fuel (c ++ t) = c ++ stripTagsF [] (fuel - c.length) t := by
  intro c
  induction c with
  | nil => intro t fuel _ _; simp
  | cons a c' ih =>
    intro t fuel hch hfuel
    cases fuel with
    | zero => simp at hfuel
    | succ n =>
      rw [List.cons_append, stripTagsF,
        if_neg (by simp [hch a (by simp)]),
        ih t n (fun ch hm => hch ch (by simp [hm])) (by simp at hfuel; omega)]
      simp [Nat.succ_sub_succ]

lemma stripTags_wrapWt (c : List Char) (hch : ∀ ch ∈ c, ch ≠ '<') :
    stripTags [] (wrapWt c) = c := by
  rw [stripTags]
  rw [show (wrapWt c).length = (10 + c.length) + 1 from by simp [wrapWt]; omega]
  rw [show wrapWt c = '<' :: ('w' :: ':' :: 't' :: '>' :: (c ++ "</w:t>".data)) from by
    simp [wrapWt]]
  rw [stripTagsF, if_pos (by decide),
    show findGtSuffix ('w' :: ':' :: 't' :: '>' :: (c ++ "</w:t>".data)) =
      some (c ++ "</w:t>".data) from rfl]
  change [] ++ stripTagsF [] (10 + c.length) (c ++ "</w:t>".data) = c
  rw [List.nil_append,
    stripTagsF_copy c "</w:t>".data (10 + c.length) hch (by simp; omega)]
  rw [show 10 + c.length - c.length = 10 from by omega]
  rw [show stripTagsF [] 10 "</w:t>".data = [] from by decide]
  simp

lemma collapseWs_append_nospace :
    ∀ (c t : List Char), (∀ ch ∈ c, isSpaceJS ch = false) →
      collapseWs (c ++ t) = c ++ collapseWs t := by
  intro c
  induction c with
  | nil => intro t _; simp
  | cons a c' ih =>
    intro t hns
    have ha : isSpaceJS a = false := hns a (by simp)
    cases hc' : c' with
    | nil =>
      cases t with
      | nil => simp [collapseWs, ha]
      | cons b t' =>
        rw [List.cons_append, List.nil_append, collapseWs]
        simp [ha]
    | cons a2 c'' =>
      subst hc'
      have hrec := ih t (fun ch hm => hns ch (by simp [hm]))
      change collapseWs (a :: a2 :: (c'' ++ t)) = a :: ((a2 :: c'') ++ collapseWs t)
      rw [collapseWs, if_neg (by simp [ha]), if_neg (by simp [ha]),
        show a2 :: (c'' ++ t) = (a2 :: c'') ++ t from rfl, hrec]

lemma joinSpace_head :
    ∀ (c : List Char) (rest : List (List Char)), c ≠ [] →
      ∃ a t, joinSpace (c :: rest) = a :: t ∧ a ∈ c := by
  intro c rest hc
  rcases c with _ | ⟨a, c'⟩
  · exact absurd rfl hc
  · cases rest with
    | nil => exact ⟨a, c', rfl, by simp⟩
    | cons y r => exact ⟨a, c' ++ ' ' :: joinSpace (y :: r), rfl, by simp⟩

lemma collapse_joinSpace :
    ∀ (cs : List (List Char)),
      (∀ c ∈ cs, c ≠ [] ∧ ∀ ch ∈ c, isSpaceJS ch = false) →
      collapseWs (joinSpace cs) = joinSpace cs := by
  intro cs
  induction cs with
  | nil => intro _; rfl
  | cons c cs' ih =>
    intro h
    obtain ⟨hc, hns⟩ := h c (by simp)
    cases cs' with
    | nil =>
      show collapseWs c = c
      have hh := collapseWs_append_nospace c [] hns
      rw [List.append_nil] at hh
      rw [hh, show collapseWs [] = ([] : List Char) from rfl, List.append_nil]
    | cons c2 rest =>
      show collapseWs (c ++ ' ' :: joinSpace (c2 :: rest)) =
        c ++ ' ' :: joinSpace (c2 :: rest)
      rw [collapseWs_append_nospace c _ hns]
      congr 1
      obtain ⟨a, t, hJ, haMem⟩ := joinSpace_head c2 rest (h c2 (by simp)).1
      have ha : isSpaceJS a = false := (h c2 (by simp)).2 a haMem
      rw [hJ, collapseWs, if_neg (by simp [ha]), if_pos (by decide), ← hJ,
        ih (fun x hx => h x (by simp [hx]))]

lemma joinSpace_reverse_head :
    ∀ (cs : List (List Char)), cs ≠ [] →
      (∀ c ∈ cs, c ≠ [] ∧ ∀ ch ∈ c, isSpaceJS ch = false) →
      ∃ a t, (joinSpace cs).reverse = a :: t ∧ isSpaceJS a = false := by
  intro cs
  induction cs with
  | nil => intro h _; exact absurd rfl h
  | cons c cs' ih =>
    intro _ h
    cases cs' with
    | nil =>
      obtain ⟨hc, hns⟩ := h c (by simp)
      show ∃ a t, c.reverse = a :: t ∧ _
      rcases hr : c.reverse with _ | ⟨a, t⟩
      · exact absurd (by simpa using congrArg List.reverse hr) hc
      · refine ⟨a, t, rfl, hns a ?_⟩
        have : a ∈ c.reverse := by rw [hr]; simp
        simpa using this
    | cons c2 rest =>
      obtain ⟨a, t, hJ, ha⟩ := ih (by simp) (fun x hx => h x (by simp [hx]))
      refine ⟨a, t ++ [' '] ++ c.reverse, ?_, ha⟩
      show (c ++ ' ' :: joinSpace (c2 :: rest)).reverse = _
      rw [List.reverse_append, List.reverse_cons, hJ]
      simp [List.append_assoc]

lemma trimL_joinSpace (cs : List (List Char))
    (h : ∀ c ∈ cs, c ≠ [] ∧ ∀ ch ∈ c, isSpaceJS ch = false) :
    trimL (joinSpace cs) = joinSpace cs := by
  cases cs with
  | nil => rfl
  | cons c cs' =>
    obtain ⟨a, t, hJ, haMem⟩ := joinSpace_head c cs' (h c (by simp)).1
    have ha : isSpaceJS a = false := (h c (by simp)).2 a haMem
    obtain ⟨b, u, hR, hb⟩ := joinSpace_reverse_head (c :: cs') (by simp) h
    have h1 : (joinSpace (c :: cs')).dropWhile isSpaceJS = joinSpace (c :: cs') := by
      rw [hJ, List.dropWhile_cons_of_neg (by simp [ha]), ← hJ]
    have h2 : (joinSpace (c :: cs')).reverse.dropWhile isSpaceJS =
        (joinSpace (c :: cs')).reverse := by
      rw [hR, List.dropWhile_cons_of_neg (by simp [hb]), ← hR]
    rw [trimL, h1, h2, List.reverse_reverse]

lemma alpha_no_lt {c : List Char} (h : ∀ ch ∈ c, ch.isAlpha = true) :
    ('<' : Char) ∉ c :=
  fun hm => absurd (h _ hm) (by decide)

lemma alpha_no_nl {c : List Char} (h : ∀ ch ∈ c, ch.isAlpha = true) :
    ('\n' : Char) ∉ c :=
  fun hm => absurd (h _ hm) (by decide)

lemma alpha_not_space {ch : Char} (h : ch.isAlpha = true) : isSpaceJS ch = false := by
  by_contra hq
  rw [Bool.not_eq_false, isSpaceJS] at hq
  have hq' := by simpa [Bool.or_eq_true, beq_iff_eq] using hq
  rcases hq' with ((((((h1 | h1) | h1) | h1) | h1) | h1) | h1) <;>
    (subst h1; exact absurd h (by decide))

lemma extractTextFromDocumentXml_eq (s : String) :
    extractTextFromDocumentXml s =
      match (wtExec false s.data).map (·.1) with
      | [] => ""
      | ms => String.mk (trimL (collapseWs (joinSpace (ms.map (stripTags []))))) := rfl

lemma map_stripTags_wrapWt (l : List (List Char))
    (hl : ∀ x ∈ l, stripTags [] (wrapWt x) = x) :
    (l.map wrapWt).map (stripTags []) = l := by
  induction l with
  | nil => rfl
  | cons x xs ih =>
    show stripTags [] (wrapWt x) :: (xs.map wrapWt).map (stripTags []) = x :: xs
    rw [hl x (by simp), ih (fun y hy => hl y (by simp [hy]))]

/-- C9 (counterexample): the regex `<w:t[^>]*>` of `extractTextFromDocumentXml`
also matches tags whose name merely starts with `w:t`, such as `<w:tab/>`, so on
the input `<w:tab/>A<w:t>B</w:t>` the function returns `"AB"` — folding in the
inter-tag text `A` — whereas the single text-run element contains only `"B"`. -/
theorem claim9_text_run_cex :
    extractTextFromDocumentXml "<w:tab/>A<w:t>B</w:t>" = "AB" ∧
      ("AB" : String) ≠ "B" := by decide

/-- C9 (amended): on inputs that are exactly a concatenation of clean text-run
elements `<w:t>…</w:t>` whose contents are nonempty and purely alphabetic, the
extraction does behave as specified: it returns the run contents in document
order joined by single spaces. -/
theorem claim9_text_run_amended (cs : List (List Char))
    (h1 : ∀ c ∈ cs, c ≠ [])
    (h2 : ∀ c ∈ cs, ∀ ch ∈ c, ch.isAlpha = true) :
    extractTextFromDocumentXml (String.mk ((cs.map wrapWt).flatten)) =
      String.mk (joinSpace cs) := by
  have hclean : ∀ c ∈ cs, ('<' : Char) ∉ c ∧ ('\n' : Char) ∉ c :=
    fun c hc => ⟨alpha_no_lt (h2 c hc), alpha_no_nl (h2 c hc)⟩
  have hcs : ∀ c ∈ cs, c ≠ [] ∧ ∀ ch ∈ c, isSpaceJS ch = false :=
    fun c hc => ⟨h1 c hc, fun ch hm => alpha_not_space (h2 c hc ch hm)⟩
  have hstr : ∀ x ∈ cs, stripTags [] (wrapWt x) = x := by
    intro x hx
    refine stripTags_wrapWt x ?_
    intro ch hm he
    subst he
    exact absurd (h2 x hx _ hm) (by decide)
  cases cs with
  | nil => rfl
  | cons c cs' =>
    have hexec : wtExec false (String.mk (((c :: cs').map wrapWt).flatten)).data =
        (c :: cs').map (fun x => (wrapWt x, x)) :=
      wtExec_wrapList false (c :: cs') hclean
    rw [extractTextFromDocumentXml_eq, hexec]
    have hmap : (((c :: cs').map fun x => (wrapWt x, x)).map
        (fun p : List Char × List Char => p.1)) = (c :: cs').map wrapWt := by
      simp
    rw [hmap, List.map_cons]
    change String.mk (trimL (collapseWs (joinSpace
        ((wrapWt c :: cs'.map wrapWt).map (stripTags []))))) =
      String.mk (joinSpace (c :: cs'))
    rw [show wrapWt c :: cs'.map wrapWt = (c :: cs').map wrapWt from rfl,
      map_stripTags_wrapWt (c :: cs') hstr, collapse_joinSpace _ hcs,
      trimL_joinSpace _ hcs]

/-- Witness for C9 (amended) at the concrete runs `Hi` and `you`: the rebuilt
input `<w:t>Hi</w:t><w:t>you</w:t>` extracts to `Hi you`. -/
theorem claim9_text_run_witness :
    extractTextFromDocumentXml
        (String.mk ((([['H', 'i'], ['y', 'o', 'u']]).map wrapWt).flatten)) =
      String.mk (joinSpace [['H', 'i'], ['y', 'o', 'u']]) :=
  claim9_text_run_amended [['H', 'i'], ['y', 'o', 'u']] (by decide) (by decide)
